import Mathlib

set_option maxHeartbeats 1000000

/-!
Shallow embedding of the PassPrive backend (Express + Supabase REST layer).

Each definition is translated from the TypeScript source under `src/`:
route handlers become pure functions over explicit request data and an
in-memory model of the relevant database tables; external data-store and
auth calls become explicit parameters (the result the platform returned).
-/

/- =====================================================================
   Common role helpers (src/modules/routes/restaurants.ts, lines 64-70)
   ===================================================================== -/

/-- `isAdminRole` from `restaurants.ts`: role is `admin` or `superadmin`. -/
def isAdminRole (role : Option String) : Bool :=
  role == some "admin" || role == some "superadmin"

/-- `isPartnerRole` from `restaurants.ts`: role is `restaurantpartner` or
`storepartner`. -/
def isPartnerRole (role : Option String) : Bool :=
  role == some "restaurantpartner" || role == some "storepartner"

/-- JS `row?.role || null`: an absent row, a null role, or an empty-string
role all collapse to `null`. -/
def normRole : Option String → Option String
  | some "" => none
  | x => x

/- =====================================================================
   C1: requireRestaurantWriteAccess (restaurants.ts, lines 100-148)
   ===================================================================== -/

/-- Row of `restaurants` as selected by the guard
(`select("id,owner_user_id")`); `owner_user_id` is nullable. -/
structure RestRow where
  id : String
  owner_user_id : Option String
deriving DecidableEq, Repr

/-- The external checks the guard performs, in source order. -/
inductive GuardStep
  | authenticate
  | resolveRole
  | fetchResource
  | compareOwnership
deriving DecidableEq, Repr

/-- Outcome of the guard: either the context object `{callerId, role}`
(success) or an HTTP status already written. -/
inductive GuardOutcome
  | allow (callerId : String) (role : Option String)
  | deny (status : Nat) (msg : String)
deriving DecidableEq, Repr

/-- `requireRestaurantWriteAccess` from `restaurants.ts` (lines 100-148).
`bearerToken` is the parsed `Authorization` header (`getBearerToken`),
`sessionUser` the identity `sb.auth.getUser()` resolved (none = invalid
session), `roleLookup` the result of `getCallerRole`, `restaurantLookup`
the result of fetching the target restaurant by id.  Returns the outcome
together with the ordered list of checks actually performed. -/
def requireRestaurantWriteAccess (bearerToken : Option String)
    (sessionUser : Option String)
    (roleLookup : Except String (Option String))
    (restaurantLookup : Except String (Option RestRow)) :
    GuardOutcome × List GuardStep :=
  match bearerToken with
  | none => (.deny 401 "Missing Authorization token", [.authenticate])
  | some _ =>
    match sessionUser with
    | none => (.deny 401 "Invalid session", [.authenticate])
    | some callerId =>
      match roleLookup with
      | .error m => (.deny 500 m, [.authenticate, .resolveRole])
      | .ok row =>
        let role := normRole row
        if isAdminRole role then
          (.allow callerId role, [.authenticate, .resolveRole])
        else if isPartnerRole role then
          match restaurantLookup with
          | .error m => (.deny 500 m, [.authenticate, .resolveRole, .fetchResource])
          | .ok none => (.deny 404 "Restaurant not found",
              [.authenticate, .resolveRole, .fetchResource])
          | .ok (some rest) =>
            if rest.owner_user_id = some callerId then
              (.allow callerId role,
                [.authenticate, .resolveRole, .fetchResource, .compareOwnership])
            else
              (.deny 403 "Access denied",
                [.authenticate, .resolveRole, .fetchResource, .compareOwnership])
        else (.deny 403 "Access denied", [.authenticate, .resolveRole])

/-- The guard granted access. -/
def guardAllows (o : GuardOutcome × List GuardStep) : Prop :=
  ∃ c r, o.1 = .allow c r

instance (o : GuardOutcome × List GuardStep) : Decidable (guardAllows o) := by
  unfold guardAllows
  match h : o.1 with
  | .allow c r => exact isTrue ⟨c, r, rfl⟩
  | .deny s m => exact isFalse (by rintro ⟨c, r, hc⟩; cases hc)

example :
    guardAllows (requireRestaurantWriteAccess (some "t") (some "c")
      (.ok (some "restaurantpartner")) (.ok (some ⟨"r1", some "c"⟩))) := by
  decide

example :
    ¬ guardAllows (requireRestaurantWriteAccess (some "t") (some "c")
      (.ok (some "restaurantpartner")) (.ok (some ⟨"r1", some "other"⟩))) := by
  decide

/-- C1: for mutating restaurant requests the write-access guard succeeds
iff the resolved role is admin/superadmin, or a partner role with the
target restaurant's `owner_user_id` equal to the caller's identity; a
partner whose identity differs gets 403, a partner targeting a missing
restaurant gets 404, and the checks run authenticate → resolve role →
(if partner) fetch resource → compare ownership, stopping at the first
failure. -/
theorem C1_restaurant_write_guard
    (sessionUser : Option String)
    (roleLookup : Except String (Option String))
    (restaurantLookup : Except String (Option RestRow))
    (t c m : String) (r : Option String) (rest : RestRow) :
    (requireRestaurantWriteAccess none sessionUser roleLookup restaurantLookup
        = (.deny 401 "Missing Authorization token", [.authenticate])) ∧
    (requireRestaurantWriteAccess (some t) none roleLookup restaurantLookup
        = (.deny 401 "Invalid session", [.authenticate])) ∧
    (requireRestaurantWriteAccess (some t) (some c) (.error m) restaurantLookup
        = (.deny 500 m, [.authenticate, .resolveRole])) ∧
    (isAdminRole (normRole r) = true →
      requireRestaurantWriteAccess (some t) (some c) (.ok r) restaurantLookup
        = (.allow c (normRole r), [.authenticate, .resolveRole])) ∧
    (isAdminRole (normRole r) = false → isPartnerRole (normRole r) = false →
      requireRestaurantWriteAccess (some t) (some c) (.ok r) restaurantLookup
        = (.deny 403 "Access denied", [.authenticate, .resolveRole])) ∧
    (isPartnerRole (normRole r) = true →
      requireRestaurantWriteAccess (some t) (some c) (.ok r) (.ok none)
        = (.deny 404 "Restaurant not found",
            [.authenticate, .resolveRole, .fetchResource])) ∧
    (isPartnerRole (normRole r) = true → rest.owner_user_id = some c →
      requireRestaurantWriteAccess (some t) (some c) (.ok r) (.ok (some rest))
        = (.allow c (normRole r),
            [.authenticate, .resolveRole, .fetchResource, .compareOwnership])) ∧
    (isPartnerRole (normRole r) = true → rest.owner_user_id ≠ some c →
      requireRestaurantWriteAccess (some t) (some c) (.ok r) (.ok (some rest))
        = (.deny 403 "Access denied",
            [.authenticate, .resolveRole, .fetchResource, .compareOwnership])) ∧
    (guardAllows (requireRestaurantWriteAccess (some t) (some c) (.ok r)
        (.ok (some rest))) ↔
      isAdminRole (normRole r) = true ∨
        (isPartnerRole (normRole r) = true ∧ rest.owner_user_id = some c)) := by
  refine ⟨rfl, rfl, rfl, ?_, ?_, ?_, ?_, ?_, ?_⟩
  · intro hA
    simp [requireRestaurantWriteAccess, hA]
  · intro hA hP
    simp [requireRestaurantWriteAccess, hA, hP]
  · intro hP
    have hA : isAdminRole (normRole r) = false := by
      cases hAd : isAdminRole (normRole r)
      · rfl
      · exfalso
        revert hP hAd
        cases normRole r with
        | none => simp [isAdminRole, isPartnerRole]
        | some s =>
          simp only [isAdminRole, isPartnerRole, Bool.or_eq_true, beq_iff_eq,
            Option.some.injEq]
          rintro (rfl | rfl) (h | h) <;> simp_all
    simp [requireRestaurantWriteAccess, hA, hP]
  · intro hP hOwn
    have hA : isAdminRole (normRole r) = false := by
      cases hAd : isAdminRole (normRole r)
      · rfl
      · exfalso
        revert hP hAd
        cases normRole r with
        | none => simp [isAdminRole, isPartnerRole]
        | some s =>
          simp only [isAdminRole, isPartnerRole, Bool.or_eq_true, beq_iff_eq,
            Option.some.injEq]
          rintro (rfl | rfl) (h | h) <;> simp_all
    simp [requireRestaurantWriteAccess, hA, hP, hOwn]
  · intro hP hOwn
    have hA : isAdminRole (normRole r) = false := by
      cases hAd : isAdminRole (normRole r)
      · rfl
      · exfalso
        revert hP hAd
        cases normRole r with
        | none => simp [isAdminRole, isPartnerRole]
        | some s =>
          simp only [isAdminRole, isPartnerRole, Bool.or_eq_true, beq_iff_eq,
            Option.some.injEq]
          rintro (rfl | rfl) (h | h) <;> simp_all
    simp [requireRestaurantWriteAccess, hA, hP, hOwn]
  · constructor
    · intro hAll
      obtain ⟨c', r', hc⟩ := hAll
      by_cases hA : isAdminRole (normRole r) = true
      · exact Or.inl hA
      · right
        by_cases hP : isPartnerRole (normRole r) = true
        · refine ⟨hP, ?_⟩
          by_cases hOwn : rest.owner_user_id = some c
          · exact hOwn
          · exfalso
            simp [requireRestaurantWriteAccess,
              eq_false_of_ne_true hA, hP, hOwn] at hc
        · exfalso
          simp [requireRestaurantWriteAccess,
            eq_false_of_ne_true hA, eq_false_of_ne_true hP] at hc
    · rintro (hA | ⟨hP, hOwn⟩)
      · exact ⟨c, normRole r, by simp [requireRestaurantWriteAccess, hA]⟩
      · have hA : isAdminRole (normRole r) = false := by
          cases hAd : isAdminRole (normRole r)
          · rfl
          · exfalso
            revert hP hAd
            cases normRole r with
            | none => simp [isAdminRole, isPartnerRole]
            | some s =>
              simp only [isAdminRole, isPartnerRole, Bool.or_eq_true, beq_iff_eq,
                Option.some.injEq]
              rintro (rfl | rfl) (h | h) <;> simp_all
        exact ⟨c, normRole r,
          by simp [requireRestaurantWriteAccess, hA, hP, hOwn]⟩

/-- C1 witness: a restaurant partner who owns the target restaurant is
allowed, with all four checks performed in order. -/
theorem C1_restaurant_write_guard_witness :
    requireRestaurantWriteAccess (some "tok") (some "caller-1")
        (.ok (some "restaurantpartner")) (.ok (some ⟨"rest-1", some "caller-1"⟩))
      = (.allow "caller-1" (some "restaurantpartner"),
          [.authenticate, .resolveRole, .fetchResource, .compareOwnership]) :=
  (C1_restaurant_write_guard (some "caller-1") (.ok (some "restaurantpartner"))
      (.ok (some ⟨"rest-1", some "caller-1"⟩)) "tok" "caller-1" ""
      (some "restaurantpartner") ⟨"rest-1", some "caller-1"⟩).2.2.2.2.2.2.1
    (by decide) (by decide)

/- =====================================================================
   C2: authHandler (src/modules/auth/auth.auto.ts)
   ===================================================================== -/

/-- Row of the `users` registry as touched by `authHandler`. -/
structure DbUser where
  id : String
  email : String
  role : String
  created_at : String
  last_login : String
  last_opened : String
deriving DecidableEq, Repr

/-- Payload signed into the session token: `{ id, email, role }`. -/
structure JwtPayload where
  id : String
  email : String
  role : String
deriving DecidableEq, Repr

/-- A signed session token: payload plus the `expiresIn` option. -/
structure JwtToken where
  payload : JwtPayload
  expiresIn : String
deriving DecidableEq, Repr

/-- `jwt.sign(payload, secret, { expiresIn: "7d" })`. -/
def jwtSign (p : JwtPayload) : JwtToken :=
  ⟨p, "7d"⟩

/-- Successful response body of `authHandler`. -/
structure AuthResponse where
  success : Bool
  mode : String
  token : JwtToken
  user : DbUser
deriving DecidableEq, Repr

/-- `authHandler` from `auth.auto.ts`, success path (the branches after the
`supabase_user` presence check, with the data-store modelled as an
in-memory `users` list).  Looks up the registry row by `id`
(`maybeSingle`); if absent, inserts one new row with role `"user"` and all
three timestamps set to now and answers mode `"registered"`; if present,
updates `last_login`/`last_opened` on the matching row and answers mode
`"logged_in"`.  Both branches sign a token over `{id, email, role}` with a
7-day expiry. -/
def authHandler (db : List DbUser) (id email now : String) :
    List DbUser × AuthResponse :=
  match db.find? (fun u => u.id == id) with
  | none =>
    let newUser : DbUser := ⟨id, email, "user", now, now, now⟩
    (db ++ [newUser],
      { success := true, mode := "registered",
        token := jwtSign ⟨id, email, newUser.role⟩, user := newUser })
  | some user =>
    let db' := db.map (fun u =>
      if u.id == id then { u with last_login := now, last_opened := now } else u)
    (db',
      { success := true, mode := "logged_in",
        token := jwtSign ⟨id, email, user.role⟩, user := user })

lemma findId_none (db : List DbUser) (id : String) :
    (∀ u ∈ db, u.id ≠ id) → db.find? (fun u => u.id == id) = none := by
  induction db with
  | nil => intro _; rfl
  | cons u t ih =>
    intro h
    have hu : (u.id == id) = false := beq_eq_false_iff_ne.mpr (h u (.head t))
    simp only [List.find?, hu, cond_false]
    exact ih fun v hv => h v (.tail u hv)

lemma findId_append (db : List DbUser) (u : DbUser) :
    (∀ v ∈ db, v.id ≠ u.id) →
    (db ++ [u]).find? (fun v => v.id == u.id) = some u := by
  induction db with
  | nil => intro _; simp [List.find?]
  | cons w t ih =>
    intro h
    have hw : (w.id == u.id) = false := beq_eq_false_iff_ne.mpr (h w (.head t))
    simp only [List.cons_append, List.find?, hw, cond_false]
    exact ih fun v hv => h v (.tail w hv)

lemma mapTouch_fresh (db : List DbUser) (id : String) (f : DbUser → DbUser) :
    (∀ v ∈ db, v.id ≠ id) →
    db.map (fun u => if u.id == id then f u else u) = db := by
  induction db with
  | nil => intro _; rfl
  | cons w t ih =>
    intro h
    have hw : (w.id == id) = false := beq_eq_false_iff_ne.mpr (h w (.head t))
    simp only [List.map_cons, hw, Bool.false_eq_true, if_false]
    rw [ih fun v hv => h v (.tail w hv)]

example :
    (authHandler [] "u1" "a@b.c" "t0").2.mode = "registered" := by decide

/-- C2: on a fresh identity, `login-or-register` inserts exactly one
registry row with role `"user"` and answers mode `"registered"`; a second
call for the same identity inserts nothing, only refreshes the
last-login/last-opened timestamps, and answers mode `"logged_in"`; both
calls issue a token over `{id, email, role}` with a 7-day expiry, and the
two tokens decode identically. -/
theorem C2_login_or_register (db : List DbUser) (id email t1 t2 : String)
    (hfresh : ∀ u ∈ db, u.id ≠ id) :
    (authHandler db id email t1).2.mode = "registered" ∧
    (authHandler db id email t1).1 = db ++ [⟨id, email, "user", t1, t1, t1⟩] ∧
    (authHandler db id email t1).1.length = db.length + 1 ∧
    (authHandler (authHandler db id email t1).1 id email t2).2.mode = "logged_in" ∧
    (authHandler (authHandler db id email t1).1 id email t2).1
      = db ++ [⟨id, email, "user", t1, t2, t2⟩] ∧
    (authHandler (authHandler db id email t1).1 id email t2).1.length
      = (authHandler db id email t1).1.length ∧
    (authHandler db id email t1).2.token = ⟨⟨id, email, "user"⟩, "7d"⟩ ∧
    (authHandler (authHandler db id email t1).1 id email t2).2.token
      = (authHandler db id email t1).2.token := by
  have h1 : db.find? (fun u => u.id == id) = none := findId_none db id hfresh
  have hdb1 : (authHandler db id email t1).1
      = db ++ [⟨id, email, "user", t1, t1, t1⟩] := by
    simp [authHandler, h1]
  have h2 : ((db ++ [(⟨id, email, "user", t1, t1, t1⟩ : DbUser)]).find?
      (fun v => v.id == id)) = some ⟨id, email, "user", t1, t1, t1⟩ :=
    findId_append db ⟨id, email, "user", t1, t1, t1⟩ hfresh
  have hmap : (db ++ [(⟨id, email, "user", t1, t1, t1⟩ : DbUser)]).map (fun u =>
        if u.id == id then { u with last_login := t2, last_opened := t2 } else u)
      = db ++ [⟨id, email, "user", t1, t2, t2⟩] := by
    rw [List.map_append, mapTouch_fresh db id _ hfresh]
    simp
  refine ⟨by simp [authHandler, h1], hdb1, by simp [hdb1], ?_, ?_, ?_,
    by simp [authHandler, h1, jwtSign], ?_⟩
  · rw [hdb1]; unfold authHandler; rw [h2]
  · rw [hdb1]; unfold authHandler; rw [h2]; exact hmap
  · rw [hdb1]; unfold authHandler; rw [h2]; simp [hmap]
  · rw [hdb1]; unfold authHandler; rw [h2, h1]

/-- C2 witness: concrete run from an empty registry. -/
theorem C2_login_or_register_witness :
    (authHandler [] "u1" "a@b.c" "2026-01-01").2.mode = "registered" ∧
    (authHandler [] "u1" "a@b.c" "2026-01-01").1
      = [⟨"u1", "a@b.c", "user", "2026-01-01", "2026-01-01", "2026-01-01"⟩] ∧
    (authHandler [] "u1" "a@b.c" "2026-01-01").1.length = 1 ∧
    (authHandler (authHandler [] "u1" "a@b.c" "2026-01-01").1 "u1" "a@b.c"
        "2026-01-02").2.mode = "logged_in" ∧
    (authHandler (authHandler [] "u1" "a@b.c" "2026-01-01").1 "u1" "a@b.c"
        "2026-01-02").1
      = [⟨"u1", "a@b.c", "user", "2026-01-01", "2026-01-02", "2026-01-02"⟩] ∧
    (authHandler (authHandler [] "u1" "a@b.c" "2026-01-01").1 "u1" "a@b.c"
        "2026-01-02").1.length = (authHandler [] "u1" "a@b.c" "2026-01-01").1.length ∧
    (authHandler [] "u1" "a@b.c" "2026-01-01").2.token
      = ⟨⟨"u1", "a@b.c", "user"⟩, "7d"⟩ ∧
    (authHandler (authHandler [] "u1" "a@b.c" "2026-01-01").1 "u1" "a@b.c"
        "2026-01-02").2.token = (authHandler [] "u1" "a@b.c" "2026-01-01").2.token := by
  have h := C2_login_or_register [] "u1" "a@b.c" "2026-01-01" "2026-01-02"
    (by intro u hu; cases hu)
  simpa using h

/- =====================================================================
   C3/C4/C8: corporate employees merge and removal
   (src/modules/routes/homeHeroOffers.ts, corporates router, lines 318-487)
   ===================================================================== -/

/-- Embedded employee record inside `corporate.employees` (jsonb). -/
structure Employee where
  user_id : String
  name : String
  email : String
  phone : String
  department : Option String
  designation : Option String
  created_at : Option String
deriving DecidableEq, Repr

/-- The `corporate` row as selected by the employees endpoints
(`select("id,seats,employees")`); `seats` is nullable. -/
structure CorpRow where
  id : String
  seats : Option Int
  employees : List Employee
deriving DecidableEq, Repr

/-- Keys of the insertion-ordered map `byUserId`. -/
def keysOf (m : List (String × Employee)) : List String :=
  m.map Prod.fst

/-- JS `Map.set`: if the key is present, replace the value in place
(keeping the entry's position); otherwise append the new entry. -/
def mapSet (m : List (String × Employee)) (k : String) (v : Employee) :
    List (String × Employee) :=
  if m.any (fun p => p.1 == k) then
    m.map (fun p => if p.1 == k then (k, v) else p)
  else m ++ [(k, v)]

/-- One step of the first loop (`for (const e of existing)`): skip entries
whose `user_id` stringifies to the empty string, otherwise `set`. -/
def buildStep (m : List (String × Employee)) (e : Employee) :
    List (String × Employee) :=
  if e.user_id == "" then m else mapSet m e.user_id e

/-- `byUserId` seeded from the existing embedded list. -/
def buildByUserId (existing : List Employee) : List (String × Employee) :=
  existing.foldl buildStep []

/-- The record written for an incoming employee: all fields from the
request, `created_at` defaulted to `nowIso` when absent. -/
def incomingRecord (now : String) (emp : Employee) : Employee :=
  { user_id := emp.user_id, name := emp.name, email := emp.email,
    phone := emp.phone, department := emp.department,
    designation := emp.designation,
    created_at := some (emp.created_at.getD now) }

/-- One step of the second loop (`for (const emp of incoming)`). -/
def mergeStep (now : String) (m : List (String × Employee)) (emp : Employee) :
    List (String × Employee) :=
  mapSet m emp.user_id (incomingRecord now emp)

/-- Folding the incoming batch into `byUserId`. -/
def mergeFold (m : List (String × Employee)) (incoming : List Employee)
    (now : String) : List (String × Employee) :=
  incoming.foldl (mergeStep now) m

/-- `merged = Array.from(byUserId.values())` after both loops. -/
def mergeEmployees (existing incoming : List Employee) (now : String) :
    List Employee :=
  (mergeFold (buildByUserId existing) incoming now).map Prod.snd

/-- Every value in the map carries its own key as `user_id`. -/
def kvInv (m : List (String × Employee)) : Prop :=
  ∀ p ∈ m, p.2.user_id = p.1

lemma any_key (m : List (String × Employee)) (k : String) :
    m.any (fun p => p.1 == k) = true ↔ k ∈ keysOf m := by
  simp [keysOf, List.any_eq_true, List.mem_map, beq_iff_eq]

lemma keysOf_mapSet_of_mem {m : List (String × Employee)} {k : String}
    (v : Employee) (h : k ∈ keysOf m) :
    keysOf (mapSet m k v) = keysOf m := by
  unfold mapSet
  rw [if_pos ((any_key m k).mpr h)]
  unfold keysOf
  rw [List.map_map]
  refine List.map_congr_left ?_
  intro p _
  by_cases hp : p.1 = k
  · simp [hp]
  · simp [beq_eq_false_iff_ne.mpr hp, hp]

lemma keysOf_mapSet_of_not_mem {m : List (String × Employee)} {k : String}
    (v : Employee) (h : k ∉ keysOf m) :
    keysOf (mapSet m k v) = keysOf m ++ [k] := by
  unfold mapSet
  rw [if_neg (fun hx => h ((any_key m k).mp hx))]
  simp [keysOf]

lemma keysOf_mapSet_sub {m : List (String × Employee)} {k : String}
    (v : Employee) :
    keysOf (mapSet m k v) ⊆ keysOf m ++ [k] := by
  by_cases h : k ∈ keysOf m
  · rw [keysOf_mapSet_of_mem v h]; exact List.subset_append_left _ _
  · rw [keysOf_mapSet_of_not_mem v h]; exact fun a ha => ha

lemma keysOf_mapSet_sup {m : List (String × Employee)} {k : String}
    (v : Employee) :
    keysOf m ⊆ keysOf (mapSet m k v) ∧ k ∈ keysOf (mapSet m k v) := by
  by_cases h : k ∈ keysOf m
  · rw [keysOf_mapSet_of_mem v h]
    exact ⟨fun a ha => ha, h⟩
  · rw [keysOf_mapSet_of_not_mem v h]
    exact ⟨List.subset_append_left _ _, by simp⟩

lemma kvInv_mapSet {m : List (String × Employee)} {k : String} {v : Employee}
    (hm : kvInv m) (hv : v.user_id = k) : kvInv (mapSet m k v) := by
  unfold mapSet
  by_cases hmem : m.any (fun p => p.1 == k) = true
  · rw [if_pos hmem]
    intro p hp
    obtain ⟨q, hq, hqe⟩ := List.mem_map.mp hp
    by_cases hqk : q.1 = k
    · rw [← hqe]; simp [hqk, hv]
    · rw [← hqe]; simp [beq_eq_false_iff_ne.mpr hqk]
      exact hm q hq
  · rw [if_neg hmem]
    intro p hp
    rcases List.mem_append.mp hp with h | h
    · exact hm p h
    · simp at h; rw [h]; exact hv

lemma nodup_keysOf_mapSet {m : List (String × Employee)} {k : String}
    (v : Employee) (h : (keysOf m).Nodup) :
    (keysOf (mapSet m k v)).Nodup := by
  by_cases hmem : k ∈ keysOf m
  · rw [keysOf_mapSet_of_mem v hmem]; exact h
  · rw [keysOf_mapSet_of_not_mem v hmem]
    simp [List.nodup_append, h, hmem]

lemma mem_snd_mapSet (m : List (String × Employee)) (k : String)
    (v : Employee) : v ∈ (mapSet m k v).map Prod.snd := by
  unfold mapSet
  by_cases hmem : m.any (fun p => p.1 == k) = true
  · rw [if_pos hmem]
    obtain ⟨p, hp, hpk⟩ := List.any_eq_true.mp hmem
    refine List.mem_map.mpr ⟨(k, v), ?_, rfl⟩
    refine List.mem_map.mpr ⟨p, hp, ?_⟩
    simp [hpk]
  · rw [if_neg hmem]
    simp

lemma build_inv_aux (l : List Employee) :
    ∀ m, kvInv m → (keysOf m).Nodup → (∀ k ∈ keysOf m, k ≠ "") →
      kvInv (l.foldl buildStep m) ∧ (keysOf (l.foldl buildStep m)).Nodup ∧
        (∀ k ∈ keysOf (l.foldl buildStep m), k ≠ "") := by
  induction l with
  | nil => intro m h1 h2 h3; exact ⟨h1, h2, h3⟩
  | cons e t ih =>
    intro m h1 h2 h3
    rw [List.foldl_cons]
    by_cases he : e.user_id = ""
    · have hb : buildStep m e = m := by simp [buildStep, he]
      rw [hb]; exact ih m h1 h2 h3
    · have hb : buildStep m e = mapSet m e.user_id e := by
        simp [buildStep, beq_eq_false_iff_ne.mpr he]
      rw [hb]
      refine ih _ (kvInv_mapSet h1 rfl) (nodup_keysOf_mapSet e h2) ?_
      intro k hk
      rcases List.mem_append.mp (keysOf_mapSet_sub e hk) with h | h
      · exact h3 k h
      · simp at h; rw [h]; exact he

lemma mergeFold_inv_aux (l : List Employee) (now : String) :
    ∀ m, kvInv m → (keysOf m).Nodup →
      kvInv (mergeFold m l now) ∧ (keysOf (mergeFold m l now)).Nodup := by
  induction l with
  | nil => intro m h1 h2; exact ⟨h1, h2⟩
  | cons e t ih =>
    intro m h1 h2
    unfold mergeFold
    rw [List.foldl_cons]
    exact ih _ (kvInv_mapSet h1 rfl) (nodup_keysOf_mapSet _ h2)

lemma mergeFold_keys_ne (l : List Employee) (now : String) :
    ∀ m, (∀ k ∈ keysOf m, k ≠ "") → (∀ e ∈ l, e.user_id ≠ "") →
      ∀ k ∈ keysOf (mergeFold m l now), k ≠ "" := by
  induction l with
  | nil => intro m hm _; exact hm
  | cons e t ih =>
    intro m hm hl
    unfold mergeFold
    rw [List.foldl_cons]
    refine ih _ ?_ (fun x hx => hl x (.tail e hx))
    intro k hk
    rcases List.mem_append.mp (keysOf_mapSet_sub _ hk) with h | h
    · exact hm k h
    · simp at h; rw [h]; exact hl e (.head t)

lemma keysOf_mergeFold_mono (l : List Employee) (now : String) :
    ∀ m, keysOf m ⊆ keysOf (mergeFold m l now) := by
  induction l with
  | nil => intro m; exact fun a ha => ha
  | cons e t ih =>
    intro m
    unfold mergeFold
    rw [List.foldl_cons]
    exact fun a ha => ih _ ((keysOf_mapSet_sup _).1 ha)

lemma mem_keysOf_mergeFold (l : List Employee) (now : String) (emp : Employee) :
    ∀ m, emp ∈ l → emp.user_id ∈ keysOf (mergeFold m l now) := by
  induction l with
  | nil => intro m h; cases h
  | cons e t ih =>
    intro m h
    have step : mergeFold m (e :: t) now = mergeFold (mergeStep now m e) t now := rfl
    rw [step]
    cases h with
    | head => exact keysOf_mergeFold_mono t now _ ((keysOf_mapSet_sup _).2)
    | tail _ hmem => exact ih _ hmem

lemma keysOf_mergeFold_of_mem (l : List Employee) (now : String) :
    ∀ m, (∀ e ∈ l, e.user_id ∈ keysOf m) →
      keysOf (mergeFold m l now) = keysOf m := by
  induction l with
  | nil => intro m _; rfl
  | cons e t ih =>
    intro m h
    have hk : keysOf (mergeStep now m e) = keysOf m :=
      keysOf_mapSet_of_mem _ (h e (.head t))
    have step : mergeFold m (e :: t) now = mergeFold (mergeStep now m e) t now := rfl
    rw [step, ih _ (fun x hx => by rw [hk]; exact h x (.tail e hx)), hk]

lemma buildFold_of_pairs (M : List (String × Employee)) :
    ∀ m, kvInv M → (keysOf M).Nodup → (∀ k ∈ keysOf M, k ≠ "") →
      (∀ k ∈ keysOf M, k ∉ keysOf m) →
      (M.map Prod.snd).foldl buildStep m = m ++ M := by
  induction M with
  | nil => intro m _ _ _ _; simp
  | cons p t ih =>
    intro m h1 h2 h3 h4
    have hcons : (p.1 :: keysOf t).Nodup := h2
    have h2t : (keysOf t).Nodup := (List.nodup_cons.mp hcons).2
    have hhd : p.1 ∉ keysOf t := (List.nodup_cons.mp hcons).1
    have hkv : p.2.user_id = p.1 := h1 p (.head t)
    have hne : p.1 ≠ "" := h3 p.1 (.head _)
    have hnm : p.1 ∉ keysOf m := h4 p.1 (.head _)
    rw [List.map_cons, List.foldl_cons]
    have hstep : buildStep m p.2 = m ++ [p] := by
      unfold buildStep
      rw [if_neg (by simp [hkv, hne])]
      unfold mapSet
      rw [hkv, if_neg (fun hx => hnm ((any_key m p.1).mp hx))]
    rw [hstep]
    have hrec := ih (m ++ [p]) (fun q hq => h1 q (.tail p hq)) h2t
      (fun k hk => h3 k (.tail _ hk))
      (fun k hk => by
        have hkm : k ∉ keysOf m := h4 k (.tail _ hk)
        have hKapp : keysOf (m ++ [p]) = keysOf m ++ [p.1] := by simp [keysOf]
        rw [hKapp]
        intro hcon
        rcases List.mem_append.mp hcon with h | h
        · exact hkm h
        · simp at h
          exact hhd (h ▸ hk))
    rw [hrec, List.append_assoc]
    rfl

/-- JS `String.prototype.toLowerCase()`: character-wise lowercasing. -/
def toLowerStr (s : String) : String :=
  ⟨s.data.map Char.toLower⟩

/-- `usersMap.get(uid)` over the registry rows fetched by
`.from("users").select("id,email").in("id", ids)`: `none` when
`usersMap.has(uid)` is false, otherwise the (nullable) registry email. -/
def lookupRegistry (reg : List (String × Option String)) (uid : String) :
    Option (Option String) :=
  (reg.find? (fun p => p.1 == uid)).map Prod.snd

/-- The per-record validation loop of `POST /:id/employees` (lines
383-393): reject the first record whose `user_id` has no registry row or
whose email does not case-insensitively match the registry email. -/
def validateEmployees (reg : List (String × Option String)) :
    List Employee → Option String
  | [] => none
  | emp :: rest =>
    match lookupRegistry reg emp.user_id with
    | none => some ("User not found in users table: " ++ emp.user_id)
    | some mail =>
      if toLowerStr (mail.getD "") == toLowerStr emp.email then
        validateEmployees reg rest
      else
        some ("Email mismatch for user_id " ++ emp.user_id ++
          ": users.email != provided email")

/-- A record that passes validation: its `user_id` has a registry row and
the supplied email case-insensitively equals the registry email
(`String(usersMap.get(..) || "").toLowerCase() === emp.email.toLowerCase()`). -/
def goodEmployee (reg : List (String × Option String)) (emp : Employee) : Prop :=
  ∃ mail, lookupRegistry reg emp.user_id = some mail ∧
    toLowerStr (mail.getD "") = toLowerStr emp.email

/-- Response of the employees endpoints. -/
inductive EmployeesResponse
  | badRequest (msg : String)
  | ok (corporateId : String) (employees : List Employee) (seats : Option Int)
deriving DecidableEq, Repr

/-- `POST /api/corporates/:id/employees` after the admin guard, with the
corporate row already loaded: validate each incoming record against the
registry, merge keyed by `user_id`, enforce `seats > 0 &&
merged.length > seats`, then write the merged list back.  Returns the
(possibly updated) corporate row plus the response. -/
def postEmployees (corp : CorpRow) (reg : List (String × Option String))
    (incoming : List Employee) (now : String) :
    CorpRow × EmployeesResponse :=
  let seats : Int := corp.seats.getD 0
  match validateEmployees reg incoming with
  | some msg => (corp, .badRequest msg)
  | none =>
    let merged := mergeEmployees corp.employees incoming now
    if seats > 0 ∧ (merged.length : Int) > seats then
      (corp, .badRequest ("Seats exceeded. Seats=" ++ toString seats ++
        ", requested employees=" ++ toString merged.length))
    else
      ({corp with employees := merged}, .ok corp.id merged corp.seats)

/-- Response of `DELETE /:id/employees/:userId`. -/
structure RemoveResponse where
  ok : Bool
  corporate_id : String
  employees : List Employee
deriving DecidableEq, Repr

/-- The filter of `DELETE /:id/employees/:userId` (line 467):
`existing.filter((e) => String(e?.user_id || "") !== userId)`. -/
def removeEmployees (existing : List Employee) (userId : String) :
    List Employee :=
  existing.filter (fun e => !(e.user_id == userId))

/-- `DELETE /api/corporates/:id/employees/:userId` after the admin guard,
with the corporate row already loaded: filter the embedded list by
`user_id` and write back the remainder; no existence check on the
employee. -/
def deleteEmployeeHandler (corp : CorpRow) (userId : String) :
    CorpRow × RemoveResponse :=
  let next := removeEmployees corp.employees userId
  ({corp with employees := next}, ⟨true, corp.id, next⟩)

lemma map_snd_userIds (M : List (String × Employee)) (h : kvInv M) :
    (M.map Prod.snd).map Employee.user_id = keysOf M := by
  unfold keysOf
  rw [List.map_map]
  exact List.map_congr_left (fun p hp => h p hp)

lemma mergeEmployees_inv (existing incoming : List Employee) (now : String) :
    kvInv (mergeFold (buildByUserId existing) incoming now) ∧
      (keysOf (mergeFold (buildByUserId existing) incoming now)).Nodup := by
  obtain ⟨hb1, hb2, _⟩ := build_inv_aux existing [] (fun p hp => by cases hp)
    (by simp [keysOf]) (by simp [keysOf])
  exact mergeFold_inv_aux incoming now _ hb1 hb2

lemma validate_none_iff (reg : List (String × Option String))
    (l : List Employee) :
    validateEmployees reg l = none ↔ ∀ emp ∈ l, goodEmployee reg emp := by
  induction l with
  | nil => simp [validateEmployees]
  | cons emp rest ih =>
    cases hlook : lookupRegistry reg emp.user_id with
    | none =>
      simp only [validateEmployees, hlook]
      constructor
      · intro h; cases h
      · intro h
        obtain ⟨mail, hm, _⟩ := h emp (.head rest)
        rw [hlook] at hm; cases hm
    | some mail =>
      by_cases hmail : toLowerStr (mail.getD "") = toLowerStr emp.email
      · simp only [validateEmployees, hlook]
        rw [if_pos (by simp [hmail]), ih]
        constructor
        · intro h e he
          cases he with
          | head => exact ⟨mail, hlook, hmail⟩
          | tail _ hmem => exact h e hmem
        · intro h e he
          exact h e (.tail emp he)
      · simp only [validateEmployees, hlook]
        rw [if_neg (by simp [hmail])]
        constructor
        · intro h; cases h
        · intro h
          obtain ⟨mail', hm, hmail'⟩ := h emp (.head rest)
          rw [hlook] at hm
          cases hm
          exact absurd hmail' hmail

lemma removeEmployees_noop (l : List Employee) (uid : String)
    (h : ∀ e ∈ l, e.user_id ≠ uid) : removeEmployees l uid = l :=
  List.filter_eq_self.mpr (fun e he => by simp [h e he])

lemma removeEmployees_ne (l : List Employee) (uid : String) :
    ∀ e ∈ removeEmployees l uid, e.user_id ≠ uid := by
  intro e he
  have hm := List.mem_filter.mp he
  simpa using hm.2

/-- C3: the employee merge is keyed by `user_id`: the merged list never
contains two entries with the same `user_id`; the final incoming record
for a key is the one written (overwrite, not duplicate); re-submitting the
same batch leaves the set of `user_id`s unchanged; and when the corporate
declares a positive seat count that the merged list would exceed, the
whole batch is rejected with the seats error and the row is not written. -/
theorem C3_employee_merge (existing incoming pre : List Employee)
    (emp : Employee) (now now2 : String) (corp : CorpRow)
    (reg : List (String × Option String)) :
    ((mergeEmployees existing incoming now).map Employee.user_id).Nodup ∧
    (incoming = pre ++ [emp] →
      incomingRecord now emp ∈ mergeEmployees existing incoming now) ∧
    ((∀ e ∈ incoming, e.user_id ≠ "") →
      (mergeEmployees (mergeEmployees existing incoming now) incoming
          now2).map Employee.user_id
        = (mergeEmployees existing incoming now).map Employee.user_id) ∧
    (validateEmployees reg incoming = none →
      corp.seats.getD 0 > 0 →
      ((mergeEmployees corp.employees incoming now).length : Int) >
          corp.seats.getD 0 →
      postEmployees corp reg incoming now
        = (corp, .badRequest ("Seats exceeded. Seats=" ++
            toString (corp.seats.getD 0) ++ ", requested employees=" ++
            toString (mergeEmployees corp.employees incoming now).length))) := by
  refine ⟨?_, ?_, ?_, ?_⟩
  · obtain ⟨hkv, hnd⟩ := mergeEmployees_inv existing incoming now
    unfold mergeEmployees
    rw [map_snd_userIds _ hkv]
    exact hnd
  · rintro rfl
    show incomingRecord now emp ∈
      (mergeFold (buildByUserId existing) (pre ++ [emp]) now).map Prod.snd
    unfold mergeFold
    rw [List.foldl_append]
    simp only [List.foldl_cons, List.foldl_nil]
    exact mem_snd_mapSet _ _ _
  · intro hne
    obtain ⟨hb1, hb2, hb3⟩ := build_inv_aux existing [] (fun p hp => by cases hp)
      (by simp [keysOf]) (by simp [keysOf])
    obtain ⟨hkv1, hnd1⟩ := mergeFold_inv_aux incoming now _ hb1 hb2
    have hne1 : ∀ k ∈ keysOf (mergeFold (buildByUserId existing) incoming now),
        k ≠ "" := mergeFold_keys_ne incoming now _ hb3 hne
    have hbuild : buildByUserId
        ((mergeFold (buildByUserId existing) incoming now).map Prod.snd)
        = mergeFold (buildByUserId existing) incoming now := by
      unfold buildByUserId
      rw [buildFold_of_pairs _ [] hkv1 hnd1 hne1 (fun k _ => by simp [keysOf])]
      simp
    have hmem : ∀ e ∈ incoming,
        e.user_id ∈ keysOf (mergeFold (buildByUserId existing) incoming now) :=
      fun e he => mem_keysOf_mergeFold incoming now e _ he
    have hkeys : keysOf (mergeFold
          (mergeFold (buildByUserId existing) incoming now) incoming now2)
        = keysOf (mergeFold (buildByUserId existing) incoming now) :=
      keysOf_mergeFold_of_mem incoming now2 _ hmem
    obtain ⟨hkv2, _⟩ := mergeFold_inv_aux incoming now2 _ hkv1 hnd1
    have hkv1' : kvInv (mergeFold (buildByUserId existing) incoming now) := hkv1
    have hkv2' : kvInv (mergeFold
        (mergeFold (buildByUserId existing) incoming now) incoming now2) := hkv2
    have hunfold : mergeEmployees existing incoming now
        = (mergeFold (buildByUserId existing) incoming now).map Prod.snd := rfl
    rw [hunfold]
    have hunfold2 : mergeEmployees
          ((mergeFold (buildByUserId existing) incoming now).map Prod.snd)
          incoming now2
        = (mergeFold (buildByUserId
            ((mergeFold (buildByUserId existing) incoming now).map Prod.snd))
            incoming now2).map Prod.snd := rfl
    rw [hunfold2, hbuild, map_snd_userIds _ hkv2', map_snd_userIds _ hkv1', hkeys]
  · intro hval hseats hlen
    simp only [postEmployees, hval]
    rw [if_pos ⟨hseats, hlen⟩]

/-- Sample records for the concrete employee-merge runs. -/
def sampleExisting : Employee :=
  ⟨"u0", "N0", "e0@x.y", "p0", none, none, some "t0"⟩

/-- Incoming record whose registry email matches case-insensitively. -/
def sampleIncoming : Employee :=
  ⟨"u1", "N1", "A@B.C", "p1", none, none, none⟩

/-- C3 witness: one existing employee, seat count 1, a valid incoming
record: the merge would hold 2 employees, so the batch is rejected with
the seats message and the corporate row is unchanged; the merged list has
pairwise-distinct `user_id`s and re-merging does not change them. -/
theorem C3_employee_merge_witness :
    postEmployees ⟨"c1", some 1, [sampleExisting]⟩ [("u1", some "a@b.c")]
        [sampleIncoming] "n1"
      = (⟨"c1", some 1, [sampleExisting]⟩,
          .badRequest ("Seats exceeded. Seats=" ++
            toString (((some 1 : Option Int)).getD 0) ++
            ", requested employees=" ++
            toString (mergeEmployees [sampleExisting] [sampleIncoming]
              "n1").length)) ∧
    ((mergeEmployees [sampleExisting] [sampleIncoming] "n1").map
        Employee.user_id).Nodup ∧
    incomingRecord "n1" sampleIncoming
      ∈ mergeEmployees [sampleExisting] [sampleIncoming] "n1" ∧
    (mergeEmployees
        (mergeEmployees [sampleExisting] [sampleIncoming] "n1")
        [sampleIncoming] "n2").map Employee.user_id
      = (mergeEmployees [sampleExisting] [sampleIncoming] "n1").map
          Employee.user_id := by
  have h := C3_employee_merge [sampleExisting] [sampleIncoming] []
    sampleIncoming "n1" "n2" ⟨"c1", some 1, [sampleExisting]⟩
    [("u1", some "a@b.c")]
  exact ⟨h.2.2.2 (by decide) (by decide) (by decide), h.1,
    h.2.1 rfl, h.2.2.1 (by decide)⟩

/-- C4: a batch containing a record whose `user_id` is absent from the
registry or whose email does not case-insensitively match the registry
email fails validation, the endpoint answers 400, and the corporate's
employees list is left unchanged (no partial merge). -/
theorem C4_employee_batch_validation (corp : CorpRow)
    (reg : List (String × Option String)) (incoming : List Employee)
    (now : String) :
    (validateEmployees reg incoming = none ↔
      ∀ emp ∈ incoming, goodEmployee reg emp) ∧
    ((∃ emp ∈ incoming, ¬ goodEmployee reg emp) →
      (postEmployees corp reg incoming now).1 = corp ∧
      ∃ msg, (postEmployees corp reg incoming now).2 = .badRequest msg) := by
  refine ⟨validate_none_iff reg incoming, ?_⟩
  rintro ⟨emp, hmem, hbad⟩
  have hval : validateEmployees reg incoming ≠ none := by
    intro h
    exact hbad ((validate_none_iff reg incoming).mp h emp hmem)
  obtain ⟨msg, hmsg⟩ := Option.ne_none_iff_exists'.mp hval
  refine ⟨by simp [postEmployees, hmsg], msg, by simp [postEmployees, hmsg]⟩

/-- C4 witness: an incoming record whose email mismatches the registry is
rejected with 400 and no write happens. -/
theorem C4_employee_batch_validation_witness :
    (postEmployees ⟨"c1", some 5, [sampleExisting]⟩ [("u1", some "x@y.z")]
        [sampleIncoming] "n1").1 = ⟨"c1", some 5, [sampleExisting]⟩ ∧
    ∃ msg, (postEmployees ⟨"c1", some 5, [sampleExisting]⟩
        [("u1", some "x@y.z")] [sampleIncoming] "n1").2
      = .badRequest msg := by
  refine (C4_employee_batch_validation ⟨"c1", some 5, [sampleExisting]⟩
    [("u1", some "x@y.z")] [sampleIncoming] "n1").2
    ⟨sampleIncoming, by decide, ?_⟩
  rintro ⟨mail, hm, hmail⟩
  have hm' : some (some "x@y.z") = some mail := hm
  cases hm'
  exact absurd hmail (by decide)

/-- C8: employee removal writes back exactly the embedded list filtered by
`user_id` (an order-preserving sublist with no entry for that id, keeping
all other entries), it succeeds without any existence check, removing an
absent id is a no-op, and the operation is idempotent. -/
theorem C8_employee_removal (corp : CorpRow) (uid : String) :
    (deleteEmployeeHandler corp uid).1.employees.Sublist corp.employees ∧
    (∀ e ∈ (deleteEmployeeHandler corp uid).1.employees, e.user_id ≠ uid) ∧
    (∀ e ∈ corp.employees, e.user_id ≠ uid →
      e ∈ (deleteEmployeeHandler corp uid).1.employees) ∧
    (deleteEmployeeHandler corp uid).2
      = ⟨true, corp.id, (deleteEmployeeHandler corp uid).1.employees⟩ ∧
    ((∀ e ∈ corp.employees, e.user_id ≠ uid) →
      deleteEmployeeHandler corp uid = (corp, ⟨true, corp.id, corp.employees⟩)) ∧
    deleteEmployeeHandler (deleteEmployeeHandler corp uid).1 uid
      = deleteEmployeeHandler corp uid := by
  refine ⟨List.filter_sublist _, removeEmployees_ne _ _, ?_, rfl, ?_, ?_⟩
  · intro e he hne
    exact List.mem_filter.mpr ⟨he, by simp [hne]⟩
  · intro h
    show ({corp with employees := removeEmployees corp.employees uid},
        (⟨true, corp.id, removeEmployees corp.employees uid⟩ : RemoveResponse))
      = (corp, ⟨true, corp.id, corp.employees⟩)
    rw [removeEmployees_noop _ _ h]
  · show deleteEmployeeHandler
        {corp with employees := removeEmployees corp.employees uid} uid
      = deleteEmployeeHandler corp uid
    unfold deleteEmployeeHandler
    rw [show ({corp with employees := removeEmployees corp.employees uid} :
        CorpRow).employees = removeEmployees corp.employees uid from rfl,
      removeEmployees_noop _ _ (removeEmployees_ne _ _)]

/-- C8 witness: removing an id that is not in the list succeeds and leaves
the corporate row exactly as it was. -/
theorem C8_employee_removal_witness :
    deleteEmployeeHandler ⟨"c1", some 5, [sampleExisting]⟩ "absent-id"
      = (⟨"c1", some 5, [sampleExisting]⟩,
          ⟨true, "c1", [sampleExisting]⟩) :=
  (C8_employee_removal ⟨"c1", some 5, [sampleExisting]⟩
    "absent-id").2.2.2.2.1 (by decide)

/- =====================================================================
   C5/C6: list endpoints
   (restaurants.ts lines 155-317, stores.ts lines 10-153, spotLight.ts
   lines 48-67)
   ===================================================================== -/

/-- `status` query enum (`z.enum(["active","inactive"])`). -/
inductive StatusQ
  | active
  | inactive
deriving DecidableEq, Repr

/-- Restaurant sort keys (`z.enum(["created_at","name","rating","distance"])`). -/
inductive RSort
  | created_at
  | name
  | rating
  | distance
deriving DecidableEq, Repr

/-- Store sort keys (`z.enum(["created_at","updated_at","name","sort_order"])`). -/
inductive SSort
  | created_at
  | updated_at
  | name
  | sort_order
deriving DecidableEq, Repr

/-- `z.enum(["asc","desc"])`. -/
inductive OrderDir
  | asc
  | desc
deriving DecidableEq, Repr

/-- `z.string().trim().min(1).optional()`: absent is fine; a present value
is trimmed and must be non-empty, else validation fails. -/
def parseTrimOpt (v : Option String) : Option (Option String) :=
  match v with
  | none => some none
  | some s => if s.trim = "" then none else some (some s.trim)

/-- `z.enum(["active","inactive"]).optional()`. -/
def parseStatus (v : Option String) : Option (Option StatusQ) :=
  match v with
  | none => some none
  | some "active" => some (some .active)
  | some "inactive" => some (some .inactive)
  | some _ => none

/-- `z.string().optional().transform((v) => v === "true")`. -/
def parseIncludeInactive (v : Option String) : Bool :=
  v == some "true"

/-- `sort` for restaurants, with default `"created_at"`. -/
def parseRSort (v : Option String) : Option RSort :=
  match v with
  | none => some .created_at
  | some "created_at" => some .created_at
  | some "name" => some .name
  | some "rating" => some .rating
  | some "distance" => some .distance
  | some _ => none

/-- `sort` for stores, with default `"created_at"`. -/
def parseSSort (v : Option String) : Option SSort :=
  match v with
  | none => some .created_at
  | some "created_at" => some .created_at
  | some "updated_at" => some .updated_at
  | some "name" => some .name
  | some "sort_order" => some .sort_order
  | some _ => none

/-- `order`, with default `"desc"`. -/
def parseOrder (v : Option String) : Option OrderDir :=
  match v with
  | none => some .desc
  | some "asc" => some .asc
  | some "desc" => some .desc
  | some _ => none

/-- `is_featured`: `v === undefined ? undefined : v === "true"`. -/
def parseIsFeatured (v : Option String) : Option Bool :=
  match v with
  | none => none
  | some s => some (s == "true")

/-- The `limit` coercion `(v) => (v ? Number(v) : 20)`.  JS numbers are
modelled as `Option ℚ`, `none` standing for a non-finite result
(`NaN`/`±Infinity`); `toNum` is the behaviour of `Number(...)` on the raw
string.  An absent or empty (falsy) value defaults to 20. -/
def coerceLimit (toNum : String → Option ℚ) (v : Option String) : Option ℚ :=
  match v with
  | none => some 20
  | some s => if s = "" then some 20 else toNum s

/-- `limit` refinement `Number.isFinite(n) && n > 0 && n <= 100`; `none`
is a validation failure (a non-finite coercion also fails the refine). -/
def parseLimit (toNum : String → Option ℚ) (v : Option String) : Option ℚ :=
  (coerceLimit toNum v).bind fun q =>
    if 0 < q ∧ q ≤ 100 then some q else none

/-- The `offset` coercion `(v) => (v ? Number(v) : 0)`. -/
def coerceOffset (toNum : String → Option ℚ) (v : Option String) : Option ℚ :=
  match v with
  | none => some 0
  | some s => if s = "" then some 0 else toNum s

/-- `offset` refinement `Number.isFinite(n) && n >= 0`. -/
def parseOffset (toNum : String → Option ℚ) (v : Option String) : Option ℚ :=
  (coerceOffset toNum v).bind fun q =>
    if 0 ≤ q then some q else none

/-- Raw query string of `GET /api/restaurants`. -/
structure RawRestListQuery where
  search : Option String
  city : Option String
  area : Option String
  status : Option String
  includeInactive : Option String
  limit : Option String
  offset : Option String
  sort : Option String
  order : Option String
deriving DecidableEq, Repr

/-- Validated query of `GET /api/restaurants` (`ListQuerySchema`). -/
structure RestListQuery where
  search : Option String
  city : Option String
  area : Option String
  status : Option StatusQ
  includeInactive : Bool
  limit : ℚ
  offset : ℚ
  sort : RSort
  order : OrderDir
deriving DecidableEq, Repr

/-- `ListQuerySchema.safeParse` for restaurants: every field must
validate, else the whole parse fails (HTTP 400). -/
def parseRestListQuery (toNum : String → Option ℚ) (raw : RawRestListQuery) :
    Option RestListQuery :=
  (parseTrimOpt raw.search).bind fun se =>
  (parseTrimOpt raw.city).bind fun ci =>
  (parseTrimOpt raw.area).bind fun ar =>
  (parseStatus raw.status).bind fun st =>
  (parseLimit toNum raw.limit).bind fun li =>
  (parseOffset toNum raw.offset).bind fun off =>
  (parseRSort raw.sort).bind fun so =>
  (parseOrder raw.order).bind fun od =>
  some ⟨se, ci, ar, st, parseIncludeInactive raw.includeInactive, li, off, so, od⟩

/-- A `restaurants` row (the columns this model needs). -/
structure Restaurant where
  id : String
  name : String
  slug : String
  phone : Option String
  city : Option String
  area : Option String
  created_at : String
  rating : Option ℚ
  distance : Option ℚ
  is_active : Bool
  owner_user_id : Option String
deriving DecidableEq, Repr

/-- Substring test on character lists. -/
def listHasSub (n : List Char) : List Char → Bool
  | [] => n.isEmpty
  | c :: t => List.isPrefixOf n (c :: t) || listHasSub n t

/-- Postgres `column ILIKE %pat%`: case-insensitive substring match; a
NULL column never matches. -/
def ilikeContains (field : Option String) (pat : String) : Bool :=
  match field with
  | none => false
  | some s => listHasSub (toLowerStr pat).data (toLowerStr s).data

/-- The filter chain of `GET /api/restaurants` (lines 296-306): default
active-only, explicit status, `city`/`area` ILIKE, `search` OR across
name/phone/area/city. -/
def restFilter (q : RestListQuery) (r : Restaurant) : Bool :=
  (if !q.includeInactive && q.status.isNone then r.is_active else true) &&
  (match q.status with
    | some .active => r.is_active
    | some .inactive => !r.is_active
    | none => true) &&
  (match q.city with
    | some c => ilikeContains r.city c
    | none => true) &&
  (match q.area with
    | some a => ilikeContains r.area a
    | none => true) &&
  (match q.search with
    | some s => ilikeContains (some r.name) s || ilikeContains r.phone s ||
        ilikeContains r.area s || ilikeContains r.city s
    | none => true)

/-- Sort key comparison for restaurants (NULL numeric keys ordered as 0). -/
def rKeyLe (s : RSort) (a b : Restaurant) : Bool :=
  match s with
  | .created_at => decide (a.created_at ≤ b.created_at)
  | .name => decide (a.name ≤ b.name)
  | .rating => decide (a.rating.getD 0 ≤ b.rating.getD 0)
  | .distance => decide (a.distance.getD 0 ≤ b.distance.getD 0)

/-- `query.order(sort, { ascending: order === "asc" })` for restaurants. -/
def rLe (s : RSort) (o : OrderDir) (a b : Restaurant) : Bool :=
  match o with
  | .asc => rKeyLe s a b
  | .desc => rKeyLe s b a

/-- Stable insertion into a sorted list. -/
def insertLe {α : Type} (le : α → α → Bool) (x : α) : List α → List α
  | [] => [x]
  | y :: t => if le x y then x :: y :: t else y :: insertLe le x t

/-- The data store's server-side ordering, modelled as a stable insertion
sort with the endpoint's comparator. -/
def sortBy {α : Type} (le : α → α → Bool) : List α → List α
  | [] => []
  | x :: t => insertLe le x (sortBy le t)

/-- PostgREST `.range(from, to)`: the inclusive index window `[from, to]`
(the handler passes `from = offset`, `to = offset + limit - 1`). -/
def rangeWindow {α : Type} (l : List α) (fromQ toQ : ℚ) : List α :=
  (l.drop (Int.floor fromQ).toNat).take
    ((Int.floor toQ).toNat + 1 - (Int.floor fromQ).toNat)

/-- Response of a paginated list endpoint:
`{items, page: {limit, offset, total}}` or 400. -/
inductive ListResponse (α : Type)
  | badRequest
  | ok (items : List α) (limit offset : ℚ) (total : Nat)
deriving DecidableEq, Repr

/-- `GET /api/restaurants`: validate, filter, order, page.  The `total`
is the count of all filtered rows (`count: "exact"`); the page is
`.range(offset, offset + limit - 1)` over the ordered filtered rows. -/
def listRestaurantsHandler (toNum : String → Option ℚ) (raw : RawRestListQuery)
    (db : List Restaurant) : ListResponse Restaurant :=
  match parseRestListQuery toNum raw with
  | none => .badRequest
  | some q =>
    let filtered := db.filter (restFilter q)
    let sorted := sortBy (rLe q.sort q.order) filtered
    .ok (rangeWindow sorted q.offset (q.offset + q.limit - 1)) q.limit q.offset
      filtered.length

/-- Raw query string of `GET /api/stores`. -/
structure RawStoreListQuery where
  search : Option String
  city : Option String
  region : Option String
  country : Option String
  category : Option String
  subcategory : Option String
  tag : Option String
  is_featured : Option String
  status : Option String
  includeInactive : Option String
  limit : Option String
  offset : Option String
  sort : Option String
  order : Option String
deriving DecidableEq, Repr

/-- Validated query of `GET /api/stores` (`ListQuerySchema` in stores.ts). -/
structure StoreListQuery where
  search : Option String
  city : Option String
  region : Option String
  country : Option String
  category : Option String
  subcategory : Option String
  tag : Option String
  is_featured : Option Bool
  status : Option StatusQ
  includeInactive : Bool
  limit : ℚ
  offset : ℚ
  sort : SSort
  order : OrderDir
deriving DecidableEq, Repr

/-- `ListQuerySchema.safeParse` for stores. -/
def parseStoreListQuery (toNum : String → Option ℚ) (raw : RawStoreListQuery) :
    Option StoreListQuery :=
  (parseTrimOpt raw.search).bind fun se =>
  (parseTrimOpt raw.city).bind fun ci =>
  (parseTrimOpt raw.region).bind fun re =>
  (parseTrimOpt raw.country).bind fun co =>
  (parseTrimOpt raw.category).bind fun ca =>
  (parseTrimOpt raw.subcategory).bind fun su =>
  (parseTrimOpt raw.tag).bind fun ta =>
  (parseStatus raw.status).bind fun st =>
  (parseLimit toNum raw.limit).bind fun li =>
  (parseOffset toNum raw.offset).bind fun off =>
  (parseSSort raw.sort).bind fun so =>
  (parseOrder raw.order).bind fun od =>
  some ⟨se, ci, re, co, ca, su, ta, parseIsFeatured raw.is_featured, st,
    parseIncludeInactive raw.includeInactive, li, off, so, od⟩

/-- A `stores` row (the columns this model needs). -/
structure Store where
  id : String
  name : String
  slug : String
  category : Option String
  subcategory : Option String
  city : Option String
  region : Option String
  country : Option String
  location_name : Option String
  tags : List String
  is_featured : Bool
  is_active : Bool
  created_at : String
  updated_at : String
  sort_order : Int
deriving DecidableEq, Repr

/-- The filter chain of `GET /api/stores` (lines 90-132). -/
def storeFilter (q : StoreListQuery) (r : Store) : Bool :=
  (if !q.includeInactive && q.status.isNone then r.is_active else true) &&
  (match q.status with
    | some .active => r.is_active
    | some .inactive => !r.is_active
    | none => true) &&
  (match q.city with
    | some c => ilikeContains r.city c
    | none => true) &&
  (match q.region with
    | some c => ilikeContains r.region c
    | none => true) &&
  (match q.country with
    | some c => ilikeContains r.country c
    | none => true) &&
  (match q.category with
    | some c => r.category == some c
    | none => true) &&
  (match q.subcategory with
    | some c => r.subcategory == some c
    | none => true) &&
  (match q.is_featured with
    | some b => r.is_featured == b
    | none => true) &&
  (match q.tag with
    | some t => r.tags.contains t
    | none => true) &&
  (match q.search with
    | some s => ilikeContains (some r.name) s || ilikeContains (some r.slug) s ||
        ilikeContains r.category s || ilikeContains r.subcategory s ||
        ilikeContains r.city s || ilikeContains r.region s ||
        ilikeContains r.location_name s
    | none => true)

/-- Sort key comparison for stores. -/
def sKeyLe (s : SSort) (a b : Store) : Bool :=
  match s with
  | .created_at => decide (a.created_at ≤ b.created_at)
  | .updated_at => decide (a.updated_at ≤ b.updated_at)
  | .name => decide (a.name ≤ b.name)
  | .sort_order => decide (a.sort_order ≤ b.sort_order)

/-- Store ordering: the chosen key in the chosen direction, with the
`created_at desc` tie-break the handler adds when `sort !== "created_at"`. -/
def sLe (s : SSort) (o : OrderDir) (a b : Store) : Bool :=
  let primLe := match o with
    | .asc => sKeyLe s a b
    | .desc => sKeyLe s b a
  let primGe := match o with
    | .asc => sKeyLe s b a
    | .desc => sKeyLe s a b
  if primLe && primGe then
    if s == .created_at then true else decide (b.created_at ≤ a.created_at)
  else primLe

/-- `GET /api/stores`: validate, filter, order, page. -/
def listStoresHandler (toNum : String → Option ℚ) (raw : RawStoreListQuery)
    (db : List Store) : ListResponse Store :=
  match parseStoreListQuery toNum raw with
  | none => .badRequest
  | some q =>
    let filtered := db.filter (storeFilter q)
    let sorted := sortBy (sLe q.sort q.order) filtered
    .ok (rangeWindow sorted q.offset (q.offset + q.limit - 1)) q.limit q.offset
      filtered.length

/-- A `spotlight_items` row. -/
structure SpotItem where
  id : String
  title : Option String
  subtitle : Option String
  media_type : String
  media_url : String
  thumbnail_url : String
  module_type : String
  order_index : Int
  is_active : Bool
deriving DecidableEq, Repr

/-- `GET /api/spotlight` (spotLight.ts lines 48-67): always
`.eq("is_active", true)`, ordered by `order_index` ascending, with an
`.eq("module_type", ...)` filter when the query value is truthy. -/
def spotlightList (db : List SpotItem) (module_type : Option String) :
    List SpotItem :=
  let q := sortBy (fun a b => decide (a.order_index ≤ b.order_index))
    (db.filter (fun r => r.is_active))
  match module_type with
  | none => q
  | some m => if m == "" then q else q.filter (fun r => r.module_type == m)

lemma mem_insertLe {α : Type} (le : α → α → Bool) (x y : α) (l : List α)
    (h : x ∈ insertLe le y l) : x = y ∨ x ∈ l := by
  induction l with
  | nil => simpa [insertLe] using h
  | cons z t ih =>
    unfold insertLe at h
    by_cases hz : le y z = true
    · rw [if_pos hz] at h
      cases h with
      | head => exact Or.inl rfl
      | tail _ h => exact Or.inr h
    · rw [if_neg hz] at h
      cases h with
      | head => exact Or.inr (.head t)
      | tail _ h =>
        rcases ih h with h | h
        · exact Or.inl h
        · exact Or.inr (.tail z h)

lemma mem_sortBy {α : Type} (le : α → α → Bool) (x : α) (l : List α)
    (h : x ∈ sortBy le l) : x ∈ l := by
  induction l with
  | nil => simp [sortBy] at h
  | cons z t ih =>
    unfold sortBy at h
    rcases mem_insertLe le x z (sortBy le t) h with h | h
    · rw [h]; exact .head t
    · exact .tail z (ih h)

lemma rangeWindow_subset {α : Type} (l : List α) (a b : ℚ) :
    rangeWindow l a b ⊆ l := by
  intro x hx
  unfold rangeWindow at hx
  exact List.drop_subset _ _ (List.take_subset _ _ hx)

lemma rangeWindow_nat {α : Type} (l : List α) (onn ln : ℕ) (hln : 1 ≤ ln) :
    rangeWindow l ((onn : ℚ)) ((onn : ℚ) + (ln : ℚ) - 1)
      = (l.drop onn).take ln := by
  unfold rangeWindow
  have h1 : Int.floor ((onn : ℚ)) = (onn : ℤ) := Int.floor_natCast onn
  have h2 : Int.floor ((onn : ℚ) + (ln : ℚ) - 1) = (onn : ℤ) + (ln : ℤ) - 1 := by
    rw [show ((onn : ℚ) + (ln : ℚ) - 1)
        = (((onn : ℤ) + (ln : ℤ) - 1 : ℤ) : ℚ) by push_cast; ring]
    exact Int.floor_intCast _
  rw [h1, h2]
  simp only [Int.toNat_natCast]
  congr 1
  omega

lemma parseLimit_bounds (toNum : String → Option ℚ) (v : Option String)
    (x : ℚ) (h : parseLimit toNum v = some x) : 0 < x ∧ x ≤ 100 := by
  unfold parseLimit at h
  rw [Option.bind_eq_some] at h
  obtain ⟨Q, _, hif⟩ := h
  by_cases hP : 0 < Q ∧ Q ≤ 100
  · rw [if_pos hP] at hif; cases hif; exact hP
  · rw [if_neg hP] at hif; cases hif

lemma parseOffset_bounds (toNum : String → Option ℚ) (v : Option String)
    (x : ℚ) (h : parseOffset toNum v = some x) : 0 ≤ x := by
  unfold parseOffset at h
  rw [Option.bind_eq_some] at h
  obtain ⟨Q, _, hif⟩ := h
  by_cases hP : 0 ≤ Q
  · rw [if_pos hP] at hif; cases hif; exact hP
  · rw [if_neg hP] at hif; cases hif

lemma parseRest_fields (toNum : String → Option ℚ) (raw : RawRestListQuery)
    (q : RestListQuery) (h : parseRestListQuery toNum raw = some q) :
    parseLimit toNum raw.limit = some q.limit ∧
    parseOffset toNum raw.offset = some q.offset ∧
    q.includeInactive = parseIncludeInactive raw.includeInactive ∧
    parseStatus raw.status = some q.status := by
  unfold parseRestListQuery at h
  simp only [Option.bind_eq_some] at h
  obtain ⟨se, hse, ci, hci, ar, har, st, hst, li, hli, off, hoff, so, hso,
    od, hod, hq⟩ := h
  cases hq
  exact ⟨hli, hoff, rfl, hst⟩

lemma parseStore_fields (toNum : String → Option ℚ) (raw : RawStoreListQuery)
    (q : StoreListQuery) (h : parseStoreListQuery toNum raw = some q) :
    parseLimit toNum raw.limit = some q.limit ∧
    parseOffset toNum raw.offset = some q.offset ∧
    q.includeInactive = parseIncludeInactive raw.includeInactive ∧
    parseStatus raw.status = some q.status := by
  unfold parseStoreListQuery at h
  simp only [Option.bind_eq_some] at h
  obtain ⟨se, hse, ci, hci, re, hre, co, hco, ca, hca, su, hsu, ta, hta,
    st, hst, li, hli, off, hoff, so, hso, od, hod, hq⟩ := h
  cases hq
  exact ⟨hli, hoff, rfl, hst⟩

/-- C5: the pagination contract of the paginated list endpoints
(restaurants and stores).  Defaults are 20/0 when the parameters are
omitted; every validated limit satisfies `0 < limit ≤ 100` and every
validated offset `0 ≤ offset`; a limit or offset that fails validation
makes the endpoint answer 400 whatever the data store holds; and on
success the page is the window `[offset, offset + limit)` over the
server-side ordered filtered rows, with the filtered total alongside. -/
theorem C5_pagination_contract (toNum : String → Option ℚ)
    (rawR : RawRestListQuery) (rawS : RawStoreListQuery)
    (dbR : List Restaurant) (dbS : List Store)
    (q : RestListQuery) (qs : StoreListQuery) (ln onn : ℕ) :
    parseLimit toNum none = some 20 ∧
    parseOffset toNum none = some 0 ∧
    (∀ v x, parseLimit toNum v = some x → 0 < x ∧ x ≤ 100) ∧
    (∀ v x, parseOffset toNum v = some x → 0 ≤ x) ∧
    (parseLimit toNum rawR.limit = none ∨ parseOffset toNum rawR.offset = none →
      ∀ db : List Restaurant, listRestaurantsHandler toNum rawR db = .badRequest) ∧
    (parseLimit toNum rawS.limit = none ∨ parseOffset toNum rawS.offset = none →
      ∀ db : List Store, listStoresHandler toNum rawS db = .badRequest) ∧
    (parseRestListQuery toNum rawR = some q → q.limit = (ln : ℚ) →
      q.offset = (onn : ℚ) →
      listRestaurantsHandler toNum rawR dbR
        = .ok (((sortBy (rLe q.sort q.order) (dbR.filter (restFilter q))).drop
            onn).take ln) q.limit q.offset (dbR.filter (restFilter q)).length) ∧
    (parseStoreListQuery toNum rawS = some qs → qs.limit = (ln : ℚ) →
      qs.offset = (onn : ℚ) →
      listStoresHandler toNum rawS dbS
        = .ok (((sortBy (sLe qs.sort qs.order) (dbS.filter (storeFilter qs))).drop
            onn).take ln) qs.limit qs.offset (dbS.filter (storeFilter qs)).length) := by
  refine ⟨?_, ?_, parseLimit_bounds toNum, parseOffset_bounds toNum,
    ?_, ?_, ?_, ?_⟩
  · unfold parseLimit coerceLimit
    rw [Option.some_bind, if_pos (by norm_num)]
  · unfold parseOffset coerceOffset
    rw [Option.some_bind, if_pos (by norm_num)]
  · intro hfail db
    cases hp : parseRestListQuery toNum rawR with
    | none => simp [listRestaurantsHandler, hp]
    | some q' =>
      exfalso
      obtain ⟨hl, ho, _, _⟩ := parseRest_fields toNum rawR q' hp
      rcases hfail with h | h
      · rw [h] at hl; cases hl
      · rw [h] at ho; cases ho
  · intro hfail db
    cases hp : parseStoreListQuery toNum rawS with
    | none => simp [listStoresHandler, hp]
    | some q' =>
      exfalso
      obtain ⟨hl, ho, _, _⟩ := parseStore_fields toNum rawS q' hp
      rcases hfail with h | h
      · rw [h] at hl; cases hl
      · rw [h] at ho; cases ho
  · intro hp hlim hoff
    have hli := (parseRest_fields toNum rawR q hp).1
    have h0 : 0 < q.limit := (parseLimit_bounds toNum rawR.limit q.limit hli).1
    have hln1 : 1 ≤ ln := by
      rw [hlim] at h0
      have : 0 < ln := by exact_mod_cast h0
      omega
    unfold listRestaurantsHandler
    simp only [hp]
    rw [hlim, hoff, rangeWindow_nat _ onn ln hln1]
  · intro hp hlim hoff
    have hli := (parseStore_fields toNum rawS qs hp).1
    have h0 : 0 < qs.limit := (parseLimit_bounds toNum rawS.limit qs.limit hli).1
    have hln1 : 1 ≤ ln := by
      rw [hlim] at h0
      have : 0 < ln := by exact_mod_cast h0
      omega
    unfold listStoresHandler
    simp only [hp]
    rw [hlim, hoff, rangeWindow_nat _ onn ln hln1]

/-- C6: every list endpoint called without `includeInactive=true` and
without an explicit `status` returns only rows with `is_active = true`
(restaurants, stores, and spotlight — the latter always filters on
active). -/
theorem C6_lists_default_active (toNum : String → Option ℚ)
    (rawR : RawRestListQuery) (rawS : RawStoreListQuery)
    (dbR : List Restaurant) (dbS : List Store) (dbSp : List SpotItem)
    (mt : Option String) (q : RestListQuery) (qs : StoreListQuery)
    (itemsR : List Restaurant) (itemsS : List Store)
    (limR offR : ℚ) (totR : Nat) (limS offS : ℚ) (totS : Nat) :
    (parseRestListQuery toNum rawR = some q → q.includeInactive = false →
      q.status = none →
      listRestaurantsHandler toNum rawR dbR = .ok itemsR limR offR totR →
      ∀ r ∈ itemsR, r.is_active = true) ∧
    (parseStoreListQuery toNum rawS = some qs → qs.includeInactive = false →
      qs.status = none →
      listStoresHandler toNum rawS dbS = .ok itemsS limS offS totS →
      ∀ r ∈ itemsS, r.is_active = true) ∧
    (∀ r ∈ spotlightList dbSp mt, r.is_active = true) := by
  refine ⟨?_, ?_, ?_⟩
  · intro hp hii hst hrun
    unfold listRestaurantsHandler at hrun
    simp only [hp] at hrun
    cases hrun
    intro r hr
    have hf := (List.mem_filter.mp (mem_sortBy _ _ _
      (rangeWindow_subset _ _ _ hr))).2
    unfold restFilter at hf
    simp only [Bool.and_eq_true] at hf
    obtain ⟨⟨⟨⟨hA, _⟩, _⟩, _⟩, _⟩ := hf
    rw [hii, hst] at hA
    simpa using hA
  · intro hp hii hst hrun
    unfold listStoresHandler at hrun
    simp only [hp] at hrun
    cases hrun
    intro r hr
    have hf := (List.mem_filter.mp (mem_sortBy _ _ _
      (rangeWindow_subset _ _ _ hr))).2
    unfold storeFilter at hf
    simp only [Bool.and_eq_true] at hf
    obtain ⟨⟨⟨⟨⟨⟨⟨⟨⟨hA, _⟩, _⟩, _⟩, _⟩, _⟩, _⟩, _⟩, _⟩, _⟩ := hf
    rw [hii, hst] at hA
    simpa using hA
  · intro r hr
    cases mt with
    | none =>
      simp only [spotlightList] at hr
      exact (List.mem_filter.mp (mem_sortBy _ _ _ hr)).2
    | some m =>
      simp only [spotlightList] at hr
      by_cases hm : (m == "") = true
      · rw [if_pos hm] at hr
        exact (List.mem_filter.mp (mem_sortBy _ _ _ hr)).2
      · rw [if_neg hm] at hr
        exact (List.mem_filter.mp (mem_sortBy _ _ _
          (List.mem_filter.mp hr).1)).2

/-- JS `Number(...)` oracle used in the concrete runs: everything
non-finite (irrelevant, since the runs pass no pagination strings). -/
def toNumNone : String → Option ℚ := fun _ => none

/-- Restaurant list request with every query parameter omitted. -/
def rawRestNone : RawRestListQuery :=
  ⟨none, none, none, none, none, none, none, none, none⟩

/-- The validated form of `rawRestNone`: all defaults. -/
def qRestDefault : RestListQuery :=
  ⟨none, none, none, none, false, 20, 0, .created_at, .desc⟩

/-- Store list request with every query parameter omitted. -/
def rawStoreNone : RawStoreListQuery :=
  ⟨none, none, none, none, none, none, none, none, none, none, none, none,
    none, none⟩

/-- The validated form of `rawStoreNone`: all defaults. -/
def qStoreDefault : StoreListQuery :=
  ⟨none, none, none, none, none, none, none, none, none, false, 20, 0,
    .created_at, .desc⟩

/-- An active restaurant row. -/
def rActive : Restaurant :=
  ⟨"r1", "Alpha", "alpha", none, none, none, "2024-01-01", none, none,
    true, none⟩

/-- An inactive (soft-deleted) restaurant row. -/
def rInactive : Restaurant :=
  ⟨"r2", "Gone", "gone", none, none, none, "2024-01-02", none, none,
    false, none⟩

/-- An active store row. -/
def stActive : Store :=
  ⟨"s1", "Beta", "beta", none, none, none, none, none, none, [], false,
    true, "2024-01-01", "2024-01-01", 0⟩

/-- An inactive store row. -/
def stInactive : Store :=
  ⟨"s2", "Down", "down", none, none, none, none, none, none, [], false,
    false, "2024-01-02", "2024-01-02", 0⟩

/-- An active spotlight row. -/
def spActive : SpotItem :=
  ⟨"p1", none, none, "image", "u", "t", "global", 1, true⟩

/-- An inactive spotlight row. -/
def spInactive : SpotItem :=
  ⟨"p2", none, none, "image", "u", "t", "global", 2, false⟩

/-- C5 witness: a parameterless request validates to limit 20 / offset 0
and the page is the `[0, 20)` window over the ordered filtered rows. -/
theorem C5_pagination_contract_witness :
    listRestaurantsHandler toNumNone rawRestNone [rActive]
      = .ok (((sortBy (rLe qRestDefault.sort qRestDefault.order)
          ([rActive].filter (restFilter qRestDefault))).drop 0).take 20)
        qRestDefault.limit qRestDefault.offset
        ([rActive].filter (restFilter qRestDefault)).length ∧
    listStoresHandler toNumNone rawStoreNone [stActive]
      = .ok (((sortBy (sLe qStoreDefault.sort qStoreDefault.order)
          ([stActive].filter (storeFilter qStoreDefault))).drop 0).take 20)
        qStoreDefault.limit qStoreDefault.offset
        ([stActive].filter (storeFilter qStoreDefault)).length := by
  have h := C5_pagination_contract toNumNone rawRestNone rawStoreNone
    [rActive] [stActive] qRestDefault qStoreDefault 20 0
  exact ⟨h.2.2.2.2.2.2.1 (by decide) (by simp [qRestDefault])
      (by simp [qRestDefault]),
    h.2.2.2.2.2.2.2 (by decide) (by simp [qStoreDefault])
      (by simp [qStoreDefault])⟩

/-- C6 witness: concrete parameterless runs over stores holding one
active and one inactive row return only active rows. -/
theorem C6_lists_default_active_witness :
    (∀ r ∈ rangeWindow (sortBy (rLe qRestDefault.sort qRestDefault.order)
        ([rActive, rInactive].filter (restFilter qRestDefault)))
        qRestDefault.offset (qRestDefault.offset + qRestDefault.limit - 1),
      r.is_active = true) ∧
    (∀ r ∈ rangeWindow (sortBy (sLe qStoreDefault.sort qStoreDefault.order)
        ([stActive, stInactive].filter (storeFilter qStoreDefault)))
        qStoreDefault.offset (qStoreDefault.offset + qStoreDefault.limit - 1),
      r.is_active = true) ∧
    (∀ r ∈ spotlightList [spActive, spInactive] none, r.is_active = true) := by
  have h := C6_lists_default_active toNumNone rawRestNone rawStoreNone
    [rActive, rInactive] [stActive, stInactive] [spActive, spInactive]
    none qRestDefault qStoreDefault
    (rangeWindow (sortBy (rLe qRestDefault.sort qRestDefault.order)
      ([rActive, rInactive].filter (restFilter qRestDefault)))
      qRestDefault.offset (qRestDefault.offset + qRestDefault.limit - 1))
    (rangeWindow (sortBy (sLe qStoreDefault.sort qStoreDefault.order)
      ([stActive, stInactive].filter (storeFilter qStoreDefault)))
      qStoreDefault.offset (qStoreDefault.offset + qStoreDefault.limit - 1))
    qRestDefault.limit qRestDefault.offset
    ([rActive, rInactive].filter (restFilter qRestDefault)).length
    qStoreDefault.limit qStoreDefault.offset
    ([stActive, stInactive].filter (storeFilter qStoreDefault)).length
  have hparseR : parseRestListQuery toNumNone rawRestNone
      = some qRestDefault := by decide
  have hparseS : parseStoreListQuery toNumNone rawStoreNone
      = some qStoreDefault := by decide
  have hrunR : listRestaurantsHandler toNumNone rawRestNone
      [rActive, rInactive]
      = .ok (rangeWindow (sortBy (rLe qRestDefault.sort qRestDefault.order)
          ([rActive, rInactive].filter (restFilter qRestDefault)))
          qRestDefault.offset (qRestDefault.offset + qRestDefault.limit - 1))
        qRestDefault.limit qRestDefault.offset
        ([rActive, rInactive].filter (restFilter qRestDefault)).length := by
    unfold listRestaurantsHandler
    rw [hparseR]
  have hrunS : listStoresHandler toNumNone rawStoreNone
      [stActive, stInactive]
      = .ok (rangeWindow (sortBy (sLe qStoreDefault.sort qStoreDefault.order)
          ([stActive, stInactive].filter (storeFilter qStoreDefault)))
          qStoreDefault.offset (qStoreDefault.offset + qStoreDefault.limit - 1))
        qStoreDefault.limit qStoreDefault.offset
        ([stActive, stInactive].filter (storeFilter qStoreDefault)).length := by
    unfold listStoresHandler
    rw [hparseS]
  exact ⟨h.1 hparseR rfl rfl hrunR, h.2.1 hparseS rfl rfl hrunS, h.2.2⟩

/- =====================================================================
   C7: DELETE /api/restaurants/:id and /api/stores/:id
   (restaurants.ts lines 447-487, stores.ts lines 216-255; GET /:id
   restaurants.ts lines 320-334)
   ===================================================================== -/

/-- Response of the delete endpoints. -/
inductive DeleteResponse
  | notFound (msg : String)
  | okDeleted (deleted : String) (id : String)
deriving DecidableEq, Repr

/-- `DELETE /api/restaurants/:id` after the write-access guard:
`hard` is `req.query.hard === "true"`; confirm the row exists (else 404);
`hard` removes the row, otherwise `is_active` is set to false. -/
def deleteRestaurantHandler (db : List Restaurant) (id : String)
    (rawHard : Option String) : List Restaurant × DeleteResponse :=
  let hard := rawHard == some "true"
  match db.find? (fun r => r.id == id) with
  | none => (db, .notFound "Restaurant not found")
  | some _ =>
    if hard then
      (db.filter (fun r => !(r.id == id)), .okDeleted "hard" id)
    else
      (db.map (fun r => if r.id == id then { r with is_active := false } else r),
        .okDeleted "soft" id)

/-- `GET /api/restaurants/:id`: fetch by id only — no `is_active` filter,
so soft-deleted rows stay retrievable. -/
def getRestaurantById (db : List Restaurant) (id : String) :
    Option Restaurant :=
  db.find? (fun r => r.id == id)

/-- `DELETE /api/stores/:id` (no guard in the source): same shape. -/
def deleteStoreHandler (db : List Store) (id : String)
    (rawHard : Option String) : List Store × DeleteResponse :=
  let hard := rawHard == some "true"
  match db.find? (fun r => r.id == id) with
  | none => (db, .notFound "Store not found")
  | some _ =>
    if hard then
      (db.filter (fun r => !(r.id == id)), .okDeleted "hard" id)
    else
      (db.map (fun r => if r.id == id then { r with is_active := false } else r),
        .okDeleted "soft" id)

/-- `GET /api/stores/:id` main row fetch. -/
def getStoreById (db : List Store) (id : String) : Option Store :=
  db.find? (fun r => r.id == id)

lemma find_map_comm {α : Type} (p : α → Bool) (g : α → α)
    (hpg : ∀ r, p (g r) = p r) (db : List α) :
    (db.map g).find? p = (db.find? p).map g := by
  induction db with
  | nil => rfl
  | cons r t ih =>
    cases hr : p r with
    | false =>
      have hgr : p (g r) = false := by rw [hpg]; exact hr
      simp only [List.map_cons, List.find?, hgr, hr, cond_false]
      exact ih
    | true =>
      have hgr : p (g r) = true := by rw [hpg]; exact hr
      simp only [List.map_cons, List.find?, hgr, hr, cond_true]
      rfl

/-- C7: deleting a restaurant or store with `hard=true` permanently
removes the row (no longer retrievable by id) and answers
`{ok, deleted:"hard", id}`; with `hard` omitted or not `"true"` the row
only has `is_active` flipped to false, everything else unchanged, the
response is `{ok, deleted:"soft", id}`, and the row is still retrievable
by id. -/
theorem C7_delete_semantics (db : List Restaurant) (dbs : List Store)
    (id ids : String) (rawHard rawHardS : Option String)
    (r0 : Restaurant) (s0 : Store) :
    (db.find? (fun r => r.id == id) = some r0 →
      deleteRestaurantHandler db id (some "true")
          = (db.filter (fun r => !(r.id == id)), .okDeleted "hard" id) ∧
      (∀ x ∈ db.filter (fun r => !(r.id == id)), x.id ≠ id) ∧
      getRestaurantById (db.filter (fun r => !(r.id == id))) id = none) ∧
    (db.find? (fun r => r.id == id) = some r0 → rawHard ≠ some "true" →
      deleteRestaurantHandler db id rawHard
          = (db.map (fun r =>
                if r.id == id then { r with is_active := false } else r),
              .okDeleted "soft" id) ∧
      getRestaurantById (db.map (fun r =>
          if r.id == id then { r with is_active := false } else r)) id
        = some { r0 with is_active := false }) ∧
    (dbs.find? (fun r => r.id == ids) = some s0 →
      deleteStoreHandler dbs ids (some "true")
          = (dbs.filter (fun r => !(r.id == ids)), .okDeleted "hard" ids) ∧
      (∀ x ∈ dbs.filter (fun r => !(r.id == ids)), x.id ≠ ids) ∧
      getStoreById (dbs.filter (fun r => !(r.id == ids))) ids = none) ∧
    (dbs.find? (fun r => r.id == ids) = some s0 → rawHardS ≠ some "true" →
      deleteStoreHandler dbs ids rawHardS
          = (dbs.map (fun r =>
                if r.id == ids then { r with is_active := false } else r),
              .okDeleted "soft" ids) ∧
      getStoreById (dbs.map (fun r =>
          if r.id == ids then { r with is_active := false } else r)) ids
        = some { s0 with is_active := false }) := by
  refine ⟨?_, ?_, ?_, ?_⟩
  · intro h
    refine ⟨?_, ?_, ?_⟩
    · unfold deleteRestaurantHandler
      rw [h]
      rfl
    · intro x hx
      have hpx := (List.mem_filter.mp hx).2
      simpa using hpx
    · unfold getRestaurantById
      refine List.find?_eq_none.mpr ?_
      intro x hx
      have hpx := (List.mem_filter.mp hx).2
      simpa using hpx
  · intro h hsoft
    have hhard : (rawHard == some "true") = false := beq_eq_false_iff_ne.mpr hsoft
    constructor
    · unfold deleteRestaurantHandler
      rw [h]
      simp only [hhard, Bool.false_eq_true, if_false]
    · have hpg : ∀ r : Restaurant,
          (((if r.id == id then { r with is_active := false } else r) :
            Restaurant).id == id) = (r.id == id) := by
        intro r
        by_cases hri : (r.id == id) = true
        · rw [if_pos hri]
        · rw [if_neg hri]
      have hcomm := find_map_comm (fun r : Restaurant => r.id == id)
        (fun r => if r.id == id then { r with is_active := false } else r) hpg db
      unfold getRestaurantById
      rw [hcomm, h]
      have hr0 := @List.find?_some _ (fun r : Restaurant => r.id == id) r0 db h
      simp only at hr0
      simp [hr0]
      intro hne
      exact absurd (by simpa using hr0) hne
  · intro h
    refine ⟨?_, ?_, ?_⟩
    · unfold deleteStoreHandler
      rw [h]
      rfl
    · intro x hx
      have hpx := (List.mem_filter.mp hx).2
      simpa using hpx
    · unfold getStoreById
      refine List.find?_eq_none.mpr ?_
      intro x hx
      have hpx := (List.mem_filter.mp hx).2
      simpa using hpx
  · intro h hsoft
    have hhard : (rawHardS == some "true") = false := beq_eq_false_iff_ne.mpr hsoft
    constructor
    · unfold deleteStoreHandler
      rw [h]
      simp only [hhard, Bool.false_eq_true, if_false]
    · have hpg : ∀ r : Store,
          (((if r.id == ids then { r with is_active := false } else r) :
            Store).id == ids) = (r.id == ids) := by
        intro r
        by_cases hri : (r.id == ids) = true
        · rw [if_pos hri]
        · rw [if_neg hri]
      have hcomm := find_map_comm (fun r : Store => r.id == ids)
        (fun r => if r.id == ids then { r with is_active := false } else r) hpg dbs
      unfold getStoreById
      rw [hcomm, h]
      have hs0 := @List.find?_some _ (fun r : Store => r.id == ids) s0 dbs h
      simp only at hs0
      simp [hs0]
      intro hne
      exact absurd (by simpa using hs0) hne

/-- C7 witness: hard delete removes the only row; soft delete keeps it
retrievable with `is_active` false and all other fields intact. -/
theorem C7_delete_semantics_witness :
    deleteRestaurantHandler [rActive] "r1" (some "true")
        = ([], .okDeleted "hard" "r1") ∧
    getRestaurantById [rActive] "r1" = some rActive ∧
    deleteRestaurantHandler [rActive] "r1" none
        = ([{ rActive with is_active := false }], .okDeleted "soft" "r1") ∧
    getRestaurantById [{ rActive with is_active := false }] "r1"
        = some { rActive with is_active := false } ∧
    deleteStoreHandler [stActive] "s1" none
        = ([{ stActive with is_active := false }], .okDeleted "soft" "s1") := by
  have h := C7_delete_semantics [rActive] [stActive] "r1" "s1" none none
    rActive stActive
  have h1 := h.1 (by decide)
  have h2 := h.2.1 (by decide) (by decide)
  have h4 := h.2.2.2 (by decide) (by decide)
  refine ⟨?_, by decide, ?_, ?_, ?_⟩
  · rw [h1.1]; decide
  · rw [h2.1]; decide
  · have := h2.2; rw [show (List.map (fun r =>
      if r.id == "r1" then { r with is_active := false } else r) [rActive])
        = [{ rActive with is_active := false }] by decide] at this
    exact this
  · rw [h4.1]; decide

/- =====================================================================
   C9: POST /api/auth/create-user, bulk mode
   (src/unnamed/part_002 lines 99-141; variant part_001 lines 214-249)
   ===================================================================== -/

/-- Body of one create-user entry. -/
structure CreateUserBody where
  email : String
  password : String
  full_name : Option String
  phone : Option String
  role : String
deriving DecidableEq, Repr

/-- A `public.users` row returned by the insert. -/
structure PublicUser where
  id : String
  email : String
  full_name : Option String
  phone : Option String
  role : String
deriving DecidableEq, Repr

/-- What `supabase.auth.signUp` handed back: a possibly-missing user id
and a possibly-missing session access token. -/
structure SignUpData where
  userId : Option String
  accessToken : Option String
deriving DecidableEq, Repr

/-- The two external calls `createOneUser` makes, as oracles. -/
structure CreateEnv where
  signUp : CreateUserBody → Except String SignUpData
  insertUser : CreateUserBody → String → String → Except String PublicUser

/-- Result of `createOneUser`: `{ok:true, user}` or `{ok:false, error,
hint?}`. -/
inductive CreateOneResult
  | ok (user : PublicUser)
  | fail (error : String) (hint : Option String)
deriving DecidableEq, Repr

/-- `createOneUser` from the bulk create-user router: required-field
check, `signUp`, guard on the returned user id and session token, then
the RLS-scoped insert into `public.users`. -/
def createOneUser (env : CreateEnv) (input : CreateUserBody) :
    CreateOneResult :=
  if input.email = "" || input.password = "" || input.role = "" then
    .fail "Email, password and role are required" none
  else
    match env.signUp input with
    | .error m => .fail m none
    | .ok su =>
      match su.userId with
      | none => .fail "User not returned from signUp" none
      | some uid =>
        match su.accessToken with
        | none => .fail
            "No session returned from signUp. If email confirmation is OFF, this is unexpected."
            none
        | some tok =>
          match env.insertUser input uid tok with
          | .error m => .fail m
              (some "RLS might block insert. Add policy: WITH CHECK (auth.uid() = id).")
          | .ok user => .ok user

/-- The aggregate report of the bulk loop. -/
structure BulkReport where
  created_count : Nat
  failed_count : Nat
  created : List PublicUser
  failed : List (String × String)
deriving DecidableEq, Repr

/-- Response of the bulk branch of `POST /create-user`. -/
inductive BulkResult
  | badRequest (msg : String)
  | report (r : BulkReport)
deriving DecidableEq, Repr

/-- The entries of the batch that succeed, in order. -/
def bulkCreated (env : CreateEnv) (users : List CreateUserBody) :
    List PublicUser :=
  users.filterMap fun u =>
    match createOneUser env u with
    | .ok user => some user
    | .fail _ _ => none

/-- The entries of the batch that fail, in order, as `(email, error)`. -/
def bulkFailed (env : CreateEnv) (users : List CreateUserBody) :
    List (String × String) :=
  users.filterMap fun u =>
    match createOneUser env u with
    | .ok _ => none
    | .fail e _ => some (u.email, e)

/-- One step of the sequential bulk loop. -/
def bulkStep (env : CreateEnv)
    (acc : List PublicUser × List (String × String)) (u : CreateUserBody) :
    List PublicUser × List (String × String) :=
  match createOneUser env u with
  | .ok user => (acc.1 ++ [user], acc.2)
  | .fail e _ => (acc.1, acc.2 ++ [(u.email, e)])

/-- The bulk branch of `POST /api/auth/create-user`: empty batch and
batches over 200 are rejected with 400 before any creation attempt; the
rest runs `createOneUser` sequentially, keeps going past failures, and
reports the created/failed partition with counts. -/
def bulkCreateUsers (env : CreateEnv) (users : List CreateUserBody) :
    BulkResult :=
  if users.length = 0 then .badRequest "users[] is required"
  else if users.length > 200 then
    .badRequest "Too many users in one request (max 200)"
  else
    let acc := users.foldl (bulkStep env) ([], [])
    .report ⟨acc.1.length, acc.2.length, acc.1, acc.2⟩

lemma bulk_fold (env : CreateEnv) (users : List CreateUserBody) :
    ∀ c f, users.foldl (bulkStep env) (c, f)
      = (c ++ bulkCreated env users, f ++ bulkFailed env users) := by
  induction users with
  | nil => intro c f; simp [bulkCreated, bulkFailed]
  | cons u t ih =>
    intro c f
    rw [List.foldl_cons]
    cases hu : createOneUser env u with
    | ok user =>
      have hstep : bulkStep env (c, f) u = (c ++ [user], f) := by
        simp [bulkStep, hu]
      rw [hstep, ih]
      simp [bulkCreated, bulkFailed, List.filterMap_cons, hu]
    | fail e hint =>
      have hstep : bulkStep env (c, f) u = (c, f ++ [(u.email, e)]) := by
        simp [bulkStep, hu]
      rw [hstep, ih]
      simp [bulkCreated, bulkFailed, List.filterMap_cons, hu]

lemma bulk_partition_length (env : CreateEnv) (users : List CreateUserBody) :
    (bulkCreated env users).length + (bulkFailed env users).length
      = users.length := by
  induction users with
  | nil => rfl
  | cons u t ih =>
    cases hu : createOneUser env u with
    | ok user =>
      simp only [bulkCreated, bulkFailed, List.filterMap_cons, hu] at *
      simpa using by omega
    | fail e hint =>
      simp only [bulkCreated, bulkFailed, List.filterMap_cons, hu] at *
      simpa using by omega

/-- C9: a bulk batch larger than 200 is rejected with 400 independently
of the external auth service (no creation is attempted); a batch within
the cap is processed sequentially without aborting on individual
failures, producing the created/failed partition with its counts, which
always add up to the batch size. -/
theorem C9_bulk_create_user (env env2 : CreateEnv)
    (users : List CreateUserBody) :
    (users.length > 200 →
      bulkCreateUsers env users
          = .badRequest "Too many users in one request (max 200)" ∧
      bulkCreateUsers env users = bulkCreateUsers env2 users) ∧
    (users.length = 0 → bulkCreateUsers env users
      = .badRequest "users[] is required") ∧
    (0 < users.length → users.length ≤ 200 →
      bulkCreateUsers env users
        = .report ⟨(bulkCreated env users).length, (bulkFailed env users).length,
            bulkCreated env users, bulkFailed env users⟩) ∧
    (bulkCreated env users).length + (bulkFailed env users).length
      = users.length := by
  refine ⟨?_, ?_, ?_, bulk_partition_length env users⟩
  · intro hgt
    have hne : ¬ users.length = 0 := by omega
    constructor
    · unfold bulkCreateUsers
      rw [if_neg hne, if_pos hgt]
    · unfold bulkCreateUsers
      rw [if_neg hne, if_pos hgt, if_neg hne, if_pos hgt]
  · intro hz
    unfold bulkCreateUsers
    rw [if_pos hz]
  · intro hpos hle
    have hne : ¬ users.length = 0 := by omega
    have hngt : ¬ users.length > 200 := by omega
    unfold bulkCreateUsers
    rw [if_neg hne, if_neg hngt, bulk_fold env users [] []]
    simp

/-- Oracle for the concrete bulk run: sign-up fails for one address. -/
def envSample : CreateEnv :=
  ⟨fun input =>
      if input.email = "dup@x.y" then .error "User already registered"
      else .ok ⟨some ("uid-" ++ input.email), some "tok"⟩,
    fun input uid _ =>
      .ok ⟨uid, input.email, input.full_name, input.phone, input.role⟩⟩

/-- A batch of two entries, the second of which fails sign-up. -/
def usersSample : List CreateUserBody :=
  [⟨"a@x.y", "pw", none, none, "user"⟩,
    ⟨"dup@x.y", "pw", none, none, "user"⟩]

/-- C9 witness: an oversized batch is rejected the same way for two
different oracles, and a two-entry batch with one failing entry yields a
report with one created and one failed entry. -/
theorem C9_bulk_create_user_witness :
    bulkCreateUsers envSample (List.replicate 201 ⟨"a@x.y", "pw", none, none, "user"⟩)
        = .badRequest "Too many users in one request (max 200)" ∧
    bulkCreateUsers envSample usersSample
        = .report ⟨(bulkCreated envSample usersSample).length,
            (bulkFailed envSample usersSample).length,
            bulkCreated envSample usersSample, bulkFailed envSample usersSample⟩ ∧
    (bulkCreated envSample usersSample).length
        + (bulkFailed envSample usersSample).length = usersSample.length := by
  have h1 := C9_bulk_create_user envSample envSample
    (List.replicate 201 (⟨"a@x.y", "pw", none, none, "user"⟩ : CreateUserBody))
  have h2 := C9_bulk_create_user envSample envSample usersSample
  exact ⟨(h1.1 (by rw [List.length_replicate]; omega)).1,
    h2.2.2.1 (by decide) (by decide), h2.2.2.2⟩

/- =====================================================================
   C10: POST /api/spotlight create (spotLight.ts lines 90-115)
   ===================================================================== -/

/-- `const nextOrder = maxRow?.[0]?.order_index + 1 || 1`: the query takes
the maximum `order_index` over ALL spotlight rows (no `is_active` filter);
with no row, `undefined + 1` is `NaN` and `|| 1` yields 1; a maximum of
`-1` makes `max + 1` the falsy `0`, which `|| 1` also turns into 1. -/
def nextOrderIndex (db : List SpotItem) : Int :=
  match (db.map SpotItem.order_index).max? with
  | none => 1
  | some m => if m + 1 = 0 then 1 else m + 1

/-- `POST /api/spotlight`: insert a new row whose `order_index` is
`nextOrderIndex` (the request carries no position) and whose
`module_type` falls back to `"global"` when falsy. -/
def createSpotlight (db : List SpotItem) (newId : String)
    (title subtitle : Option String) (media_type : String)
    (module_type : Option String) (media_url thumbnail_url : String) :
    List SpotItem × SpotItem :=
  let item : SpotItem :=
    ⟨newId, title, subtitle, media_type, media_url, thumbnail_url,
      (match module_type with
        | none => "global"
        | some mo => if mo = "" then "global" else mo),
      nextOrderIndex db, true⟩
  (db ++ [item], item)

/-- A spotlight row with `order_index = -1`. -/
def spNegOne : SpotItem :=
  ⟨"p3", none, none, "image", "u", "t", "global", -1, true⟩

/-- C10 counterexample: with a single existing item of `order_index = -1`
(maximum = -1), the code assigns 1, not `max + 1 = 0` — the JS `|| 1`
swallows the falsy 0. -/
theorem C10_spotlight_order_counterexample :
    (createSpotlight [spNegOne] "new" none none "image" none "u" "t").2.order_index
        = 1 ∧
    ([spNegOne].map SpotItem.order_index).max? = some (-1) ∧
    (1 : Int) ≠ -1 + 1 := by
  decide

/-- C10 (amended): the created item's `order_index` is one greater than
the maximum `order_index` over all spotlight rows (inactive included),
except that with no row, or with maximum -1 (where `max + 1` is the JS
falsy 0), the assigned value is 1; the caller supplies no position, and
the new row is appended to the table. -/
theorem C10_spotlight_order_index (db : List SpotItem) (m : Int)
    (newId : String) (title subtitle : Option String) (media_type : String)
    (module_type : Option String) (media_url thumbnail_url : String) :
    ((db.map SpotItem.order_index).max? = none → nextOrderIndex db = 1) ∧
    ((db.map SpotItem.order_index).max? = some m → m ≠ -1 →
      nextOrderIndex db = m + 1) ∧
    ((db.map SpotItem.order_index).max? = some (-1) →
      nextOrderIndex db = 1) ∧
    (createSpotlight db newId title subtitle media_type module_type
        media_url thumbnail_url).2.order_index = nextOrderIndex db ∧
    (createSpotlight db newId title subtitle media_type module_type
        media_url thumbnail_url).1
      = db ++ [(createSpotlight db newId title subtitle media_type
          module_type media_url thumbnail_url).2] := by
  refine ⟨?_, ?_, ?_, rfl, rfl⟩
  · intro h
    unfold nextOrderIndex
    rw [h]
  · intro h hm
    unfold nextOrderIndex
    rw [h]
    show (if m + 1 = 0 then (1 : Int) else m + 1) = m + 1
    rw [if_neg (by omega)]
  · intro h
    unfold nextOrderIndex
    rw [h]
    show (if (-1 : Int) + 1 = 0 then (1 : Int) else -1 + 1) = 1
    rw [if_pos (by omega)]

/-- C10 witness: with one row of `order_index = 1` the next index is 2;
with none it is 1. -/
theorem C10_spotlight_order_index_witness :
    nextOrderIndex [spActive] = 1 + 1 ∧ nextOrderIndex [] = 1 := by
  have h := C10_spotlight_order_index [spActive] 1 "n" none none "image"
    none "u" "t"
  have h0 := C10_spotlight_order_index [] 1 "n" none none "image" none "u" "t"
  exact ⟨h.2.1 (by decide) (by decide), h0.1 (by decide)⟩
